import Mathlib

/-!
Shallow embedding of the ninjabot simulated matching/accounting engine
(exchange.PaperWallet), the order controller's profit attribution
(order.Controller.calculateProfit) and the strategy controller's candle
ingestion (strategy.Controller.OnCandle), translated from the Go source.

Modelling conventions:
* `float64` is modelled as `Rat` (exact rational arithmetic).  All branch
  conditions and updates in the embedded code are arithmetic comparisons and
  field operations that coincide with the Go semantics on the (small, exactly
  representable) values used in the concrete theorems below; `math.MaxFloat64`
  is embedded as the exact rational value of that constant.
* `time.Time` is modelled as `Int` (the zero value `time.Time{}` is `0`,
  `Before` is `<`, `Equal` is `=`).
* Go maps are modelled as association lists with first-match lookup; a missing
  numeric entry reads as the zero value, exactly as in the Go code, which
  either pre-creates entries or relies on zero values.
* Go's in-place mutations are modelled by sequentially threading the wallet
  state, one update per source statement.
-/

set_option linter.unusedVariables false
set_option linter.unreachableTactic false
set_option linter.unusedTactic false
set_option exponentiation.threshold 2000
set_option maxRecDepth 40000

/-- Side of an order: model.SideTypeBuy / model.SideTypeSell. -/
inductive Side where
  | buy
  | sell
deriving DecidableEq, Repr

/-- Order types used by the paper wallet (model.OrderType constants). -/
inductive OrderType where
  | market
  | limit
  | limitMaker
  | takeProfit
  | takeProfitLimit
  | stopLoss
  | stopLossLimit
deriving DecidableEq, Repr

/-- Order statuses used by the engine (model.OrderStatusType constants). -/
inductive OrderStatus where
  | new
  | filled
  | partiallyFilled
  | canceled
  | pendingCancel
deriving DecidableEq, Repr

/-- model.Order: the fields read or written by the embedded code.
`id` is the storage id assigned by storage.CreateOrder; `exchangeID` is the
id assigned by PaperWallet.ID. -/
structure Order where
  id : Int := 0
  exchangeID : Int := 0
  pair : String := ""
  side : Side := Side.buy
  otype : OrderType := OrderType.market
  status : OrderStatus := OrderStatus.new
  price : Rat := 0
  stop : Option Rat := none
  quantity : Rat := 0
  groupID : Option Int := none
  createdAt : Int := 0
  updatedAt : Int := 0
  refPrice : Rat := 0
  profit : Rat := 0
deriving DecidableEq, Repr

/-- model.Candle: the fields read by the embedded code. -/
structure Candle where
  pair : String := ""
  time : Int := 0
  openP : Rat := 0
  close : Rat := 0
  low : Rat := 0
  high : Rat := 0
  volume : Rat := 0
  complete : Bool := true
  metadata : List (String × Rat) := []
deriving DecidableEq, Repr

/-- exchange.assetInfo: free and locked quantity of one asset. -/
structure AssetInfo where
  free : Rat := 0
  lock : Rat := 0
deriving DecidableEq, Repr

/-- exchange.AssetValue: one (timestamp, value) equity sample. -/
structure AssetValue where
  time : Int := 0
  value : Rat := 0
deriving DecidableEq, Repr

/-- The error cases produced by the embedded wallet operations
(exchange.OrderError wrapping ErrInsufficientFunds, and ErrInvalidQuantity). -/
inductive WalletError where
  | insufficientFunds (pair : String) (quantity : Rat)
  | invalidQuantity
deriving DecidableEq, Repr

/-- Association-list map with string keys, modelling a Go map.  Lookup takes
the first matching entry; `set` overwrites the first matching entry in place
or appends a new one. -/
def SMap (α : Type) : Type := List (String × α)

instance (α : Type) [DecidableEq α] : DecidableEq (SMap α) :=
  inferInstanceAs (DecidableEq (List (String × α)))

/-- Lookup with default, modelling `m[k]` where a missing key reads the zero
value. -/
def SMap.getD {α : Type} (m : SMap α) (k : String) (d : α) : α :=
  match m with
  | [] => d
  | (k', v) :: rest => if k' = k then v else SMap.getD rest k d

/-- Key-membership test, modelling the `_, ok := m[k]` idiom. -/
def SMap.hasKey {α : Type} (m : SMap α) (k : String) : Bool :=
  match m with
  | [] => false
  | (k', _) :: rest => if k' = k then true else SMap.hasKey rest k

/-- Write `m[k] = v`: overwrite the first entry with key `k`, or append. -/
def SMap.set {α : Type} (m : SMap α) (k : String) (v : α) : SMap α :=
  match m with
  | [] => [(k, v)]
  | (k', v') :: rest => if k' = k then (k, v) :: rest else (k', v') :: SMap.set rest k v

theorem SMap.getD_set {α : Type} (m : SMap α) (k a : String) (v d : α) :
    (m.set k v).getD a d = if k = a then v else m.getD a d := by
  induction m with
  | nil =>
    simp only [SMap.set, SMap.getD]
  | cons hd tl ih =>
    obtain ⟨k', v'⟩ := hd
    simp only [SMap.set]
    by_cases h1 : k' = k
    · subst h1
      simp only [if_pos rfl, SMap.getD]
      by_cases h2 : k' = a
      · subst h2; simp
      · simp [h2]
    · simp only [if_neg h1, SMap.getD]
      by_cases h2 : k' = a
      · subst h2
        have : ¬ k = k' := fun h => h1 h.symm
        simp [this]
      · simp [h2, ih]

theorem SMap.getD_hasKey_false {α : Type} (m : SMap α) (k : String) (d : α)
    (h : m.hasKey k = false) : m.getD k d = d := by
  induction m with
  | nil => rfl
  | cons hd tl ih =>
    obtain ⟨k', v'⟩ := hd
    simp only [SMap.hasKey] at h
    by_cases h1 : k' = k
    · simp [h1] at h
    · simp only [SMap.getD, if_neg h1]
      exact ih (by simpa [h1] using h)

/-- strings.HasSuffix, computed on the character list of the string. -/
def strEndsWith (s t : String) : Bool :=
  List.drop (s.data.length - t.data.length) s.data == t.data

/-- Drop the last `n` characters of a string. -/
def strDropRight (s : String) (n : Nat) : String :=
  String.mk (s.data.take (s.data.length - n))

/-- Modelled from the spec: `exchange.SplitAssetQuote` is not included in the
provided sources (only its callers are).  Per the spec (§3, §4.1) a trading
pair is the concatenation of a base asset and a quote asset; we split off a
known quote-currency suffix, defaulting to the last four characters. -/
def splitAssetQuote (pair : String) : String × String :=
  if strEndsWith pair "USDT" then (strDropRight pair 4, "USDT")
  else if strEndsWith pair "BUSD" then (strDropRight pair 4, "BUSD")
  else if strEndsWith pair "USDC" then (strDropRight pair 4, "USDC")
  else if strEndsWith pair "BTC" then (strDropRight pair 3, "BTC")
  else if strEndsWith pair "ETH" then (strDropRight pair 3, "ETH")
  else if strEndsWith pair "BRL" then (strDropRight pair 3, "BRL")
  else (strDropRight pair 4, String.mk (pair.data.drop (pair.data.length - 4)))

/-- strings.ToUpper restricted to ASCII, as used on asset tickers. -/
def toUpperStr (s : String) : String :=
  String.mk (s.data.map Char.toUpper)

/-- exchange.PaperWallet: the simulated venue's entire mutable state.
`profitLog` is a ghost field recording, in order, the PROFIT values that
`updateAveragePrice` logs (`log.Infof("PROFIT = ...")`); it tracks exactly the
realized-profit values the incremental algorithm produces. -/
structure PaperWallet where
  baseCoin : String := "USDT"
  counter : Int := 0
  orders : List Order := []
  assets : SMap AssetInfo := []
  avgShortPrice : SMap Rat := []
  avgLongPrice : SMap Rat := []
  volume : SMap Rat := []
  lastCandle : SMap Candle := []
  fistCandle : SMap Candle := []
  assetValues : SMap (List AssetValue) := []
  equityValues : List AssetValue := []
  profitLog : List Rat := []
deriving DecidableEq

/-- Read `p.assets[k]`, with the zero value for a missing entry. -/
def PaperWallet.getAsset (p : PaperWallet) (k : String) : AssetInfo :=
  p.assets.getD k {}

/-- Mutate `p.assets[k]` in place through `f` (reading the zero value when the
entry is missing, as the Go code only does this after creating the entry). -/
def PaperWallet.modifyAsset (p : PaperWallet) (k : String) (f : AssetInfo → AssetInfo) :
    PaperWallet :=
  { p with assets := p.assets.set k (f (p.assets.getD k {})) }

/-- The `if _, ok := p.assets[k]; !ok { p.assets[k] = &assetInfo{} }` idiom. -/
def PaperWallet.ensureAsset (p : PaperWallet) (k : String) : PaperWallet :=
  if p.assets.hasKey k then p else { p with assets := p.assets.set k {} }

/-- The `if _, ok := p.volume[k]; !ok { p.volume[k] = 0 }` idiom. -/
def PaperWallet.ensureVolume (p : PaperWallet) (k : String) : PaperWallet :=
  if p.volume.hasKey k then p else { p with volume := p.volume.set k 0 }

/-- The `p.volume[k] += amt` statement. -/
def PaperWallet.addVolume (p : PaperWallet) (k : String) (amt : Rat) : PaperWallet :=
  { p with volume := p.volume.set k (p.volume.getD k 0 + amt) }

/-- PaperWallet.ID: increment the counter and return it. -/
def PaperWallet.nextID (p : PaperWallet) : Int × PaperWallet :=
  (p.counter + 1, { p with counter := p.counter + 1 })

/-- PaperWallet.updateAveragePrice (part_000:432-492): the incremental
average-price state machine.  It reads `actualQty` from the asset's *current*
free balance, updates `avgLongPrice` / `avgShortPrice` for the pair and, in
the two position-reducing branches, appends the logged PROFIT value to the
ghost `profitLog`. -/
def PaperWallet.updateAveragePrice (p : PaperWallet) (side : Side) (pair : String)
    (amount value : Rat) : PaperWallet :=
  let asset := (splitAssetQuote pair).1
  -- actualQty := 0.0; if p.assets[asset] != nil { actualQty = p.assets[asset].Free }
  let actualQty : Rat :=
    if p.assets.hasKey asset then (p.assets.getD asset {}).free else 0
  -- without previous position
  if actualQty = 0 then
    if side = Side.buy then { p with avgLongPrice := p.avgLongPrice.set pair value }
    else { p with avgShortPrice := p.avgShortPrice.set pair value }
  -- actual long + order buy
  else if actualQty > 0 ∧ side = Side.buy then
    let positionValue := p.avgLongPrice.getD pair 0 * actualQty
    { p with avgLongPrice := p.avgLongPrice.set pair ((positionValue + amount * value) / (actualQty + amount)) }
  -- actual long + order sell
  else if actualQty > 0 ∧ side = Side.sell then
    let profitValue := amount * value - min amount actualQty * p.avgLongPrice.getD pair 0
    let p := { p with profitLog := p.profitLog ++ [profitValue] }
    if amount ≤ actualQty then p
    else { p with avgShortPrice := p.avgShortPrice.set pair value }
  -- actual short + order sell
  else if actualQty < 0 ∧ side = Side.sell then
    let positionValue := p.avgShortPrice.getD pair 0 * (-actualQty)
    { p with avgShortPrice := p.avgShortPrice.set pair ((positionValue + amount * value) / (-actualQty + amount)) }
  -- actual short + order buy
  else if actualQty < 0 ∧ side = Side.buy then
    let profitValue := min amount (-actualQty) * p.avgShortPrice.getD pair 0 - amount * value
    let p := { p with profitLog := p.profitLog ++ [profitValue] }
    if amount ≤ -actualQty then p
    else { p with avgLongPrice := p.avgLongPrice.set pair value }
  else p

/-- The insufficient-funds test of PaperWallet.validateFunds
(part_000:308-320 for a sell, 342-360 for a buy), computed on the wallet
after the two asset entries have been created.  For a sell, available funds
are the quote free balance plus the (positive) asset free balance valued at
the price; for a buy, a net-short asset adds its liquidation value
`2*v*avgShort - v*value` to the funds and reduces the amount to buy by the
(negative) free balance. -/
def PaperWallet.fundsInsufficient (p : PaperWallet) (side : Side) (pair : String)
    (amount value : Rat) : Bool :=
  let aq := splitAssetQuote pair
  let asset := aq.1
  let quote := aq.2
  match side with
  | Side.sell =>
    let funds := (p.getAsset quote).free +
      (if (p.getAsset asset).free > 0 then (p.getAsset asset).free * value else 0)
    decide (funds < amount * value)
  | Side.buy =>
    let liquidShortValue : Rat :=
      if (p.getAsset asset).free < 0 then
        let v := |(p.getAsset asset).free|
        2 * v * p.avgShortPrice.getD pair 0 - v * value
      else 0
    let funds := (p.getAsset quote).free + liquidShortValue
    let amountToBuy :=
      if (p.getAsset asset).free < 0 then amount + (p.getAsset asset).free else amount
    decide (funds < amountToBuy * value)

/-- The mutation part of PaperWallet.validateFunds (part_000:322-338 for a
sell, 362-375 for a buy), run only when funds are sufficient, one update per
source statement. -/
def PaperWallet.applyReserve (p : PaperWallet) (side : Side) (pair : String)
    (amount value : Rat) (fill : Bool) : PaperWallet :=
  let aq := splitAssetQuote pair
  let asset := aq.1
  let quote := aq.2
  match side with
  | Side.sell =>
    -- ignore negative asset amount to lock
    let lockedAsset := min (max (p.getAsset asset).free 0) amount
    let lockedQuote := (amount - lockedAsset) * value
    let p := p.modifyAsset asset (fun a => { a with free := a.free - lockedAsset })
    let p := p.modifyAsset quote (fun a => { a with free := a.free - lockedQuote })
    if fill then
      let p := p.updateAveragePrice side pair amount value
      if lockedQuote > 0 then
        -- entering in short position
        p.modifyAsset asset (fun a => { a with free := a.free - amount })
      else
        -- liquidating long position
        p.modifyAsset quote (fun a => { a with free := a.free + amount * value })
    else
      let p := p.modifyAsset asset (fun a => { a with lock := a.lock + lockedAsset })
      p.modifyAsset quote (fun a => { a with lock := a.lock + lockedQuote })
  | Side.buy =>
    let liquidShortValue : Rat :=
      if (p.getAsset asset).free < 0 then
        let v := |(p.getAsset asset).free|
        2 * v * p.avgShortPrice.getD pair 0 - v * value
      else 0
    -- ignore positive amount to lock
    let lockedAsset := min (-(min (p.getAsset asset).free 0)) amount
    let lockedQuote := (amount - lockedAsset) * value - liquidShortValue
    let p := p.modifyAsset asset (fun a => { a with free := a.free + lockedAsset })
    let p := p.modifyAsset quote (fun a => { a with free := a.free - lockedQuote })
    if fill then
      let p := p.updateAveragePrice side pair amount value
      p.modifyAsset asset (fun a => { a with free := a.free + (amount - lockedAsset) })
    else
      let p := p.modifyAsset asset (fun a => { a with lock := a.lock + lockedAsset })
      p.modifyAsset quote (fun a => { a with lock := a.lock + lockedQuote })

/-- PaperWallet.validateFunds (part_000:298-379).  Returns the wallet after
the call together with `some` error when funds are insufficient (the Go code
mutates the receiver in place and returns an error value; the only mutation
on the error path is the creation of zero-valued asset entries). -/
def PaperWallet.validateFunds (p : PaperWallet) (side : Side) (pair : String)
    (amount value : Rat) (fill : Bool) : PaperWallet × Option WalletError :=
  let aq := splitAssetQuote pair
  let p := p.ensureAsset aq.1
  let p := p.ensureAsset aq.2
  if p.fundsInsufficient side pair amount value then
    (p, some (WalletError.insufficientFunds pair amount))
  else
    (p.applyReserve side pair amount value fill, none)

/-- math.MaxFloat64 as an exact rational (the value 2^1024 - 2^971,
computed over Nat so that it evaluates by kernel reduction). -/
def maxFloat64 : Rat := ((2 ^ 1024 - 2 ^ 971 : Nat) : Rat)

/-- The loop state of PaperWallet.MaxDrawdown (part_000:150-187). -/
structure DrawdownAcc where
  localMin : Rat
  localMinBase : Rat
  localMinStart : Int
  localMinEnd : Int
  globalMin : Rat
  globalMinBase : Rat
  globalMinStart : Int
  globalMinEnd : Int
deriving DecidableEq

/-- One iteration of the MaxDrawdown loop, over the consecutive pair
(previous sample, current sample). -/
def drawdownStep (acc : DrawdownAcc) (pc : AssetValue × AssetValue) : DrawdownAcc :=
  let prev := pc.1
  let cur := pc.2
  let diff := cur.value - prev.value
  let acc :=
    if acc.localMin > 0 then
      { acc with localMin := diff, localMinBase := prev.value,
                 localMinStart := prev.time, localMinEnd := cur.time }
    else
      { acc with localMin := acc.localMin + diff, localMinEnd := cur.time }
  if acc.localMin < acc.globalMin then
    { acc with globalMin := acc.localMin, globalMinBase := acc.localMinBase,
               globalMinStart := acc.localMinStart, globalMinEnd := acc.localMinEnd }
  else acc

/-- PaperWallet.MaxDrawdown (part_000:150-187).  Returns
(drawdown fraction, start time, end time); with an empty equity series it
returns `(0, 0, 0)` (`time.Time{}` is modelled as `0`).  Note the guard in
the source is `len(p.equityValues) < 1`, so a single sample falls through to
the loop (which then never runs) and the `math.MaxFloat64` initializer of
`localMin`/`globalMin` reaches the returned quotient. -/
def PaperWallet.maxDrawdown (p : PaperWallet) : Rat × Int × Int :=
  match p.equityValues with
  | [] => (0, 0, 0)
  | e0 :: rest =>
    let init : DrawdownAcc :=
      { localMin := maxFloat64, localMinBase := e0.value,
        localMinStart := e0.time, localMinEnd := e0.time,
        globalMin := maxFloat64, globalMinBase := e0.value,
        globalMinStart := e0.time, globalMinEnd := e0.time }
    let acc := List.foldl drawdownStep init ((e0 :: rest).zip rest)
    (acc.globalMin / acc.globalMinBase, acc.globalMinStart, acc.globalMinEnd)

/-- PaperWallet.createOrderMarket (part_000:818-849); CreateOrderMarket is a
lock-taking wrapper around it.  The market order is validated with
`fill = true` at the last candle's close, so balances and the average price
are updated immediately and the order is stored already `Filled`. -/
def PaperWallet.createOrderMarket (p : PaperWallet) (side : Side) (pair : String)
    (size : Rat) : PaperWallet × Except WalletError Order :=
  if size = 0 then (p, Except.error WalletError.invalidQuantity)
  else
    match p.validateFunds side pair size (p.lastCandle.getD pair {}).close true with
    | (p1, some e) => (p1, Except.error e)
    | (p1, none) =>
      let p2 := p1.ensureVolume pair
      let newVolume :=
        p2.volume.set pair (p2.volume.getD pair 0 + (p2.lastCandle.getD pair {}).close * size)
      let p3 := { p2 with volume := newVolume }
      let (oid, p4) := p3.nextID
      let order : Order :=
        { exchangeID := oid,
          createdAt := (p4.lastCandle.getD pair {}).time,
          updatedAt := (p4.lastCandle.getD pair {}).time,
          pair := pair, side := side, otype := OrderType.market,
          status := OrderStatus.filled,
          price := (p4.lastCandle.getD pair {}).close, quantity := size }
      ({ p4 with orders := p4.orders ++ [order] }, Except.ok order)

/-- PaperWallet.CreateOrderLimit (part_000:750-777). -/
def PaperWallet.createOrderLimit (p : PaperWallet) (side : Side) (pair : String)
    (size limit : Rat) : PaperWallet × Except WalletError Order :=
  if size = 0 then (p, Except.error WalletError.invalidQuantity)
  else
    match p.validateFunds side pair size limit false with
    | (p1, some e) => (p1, Except.error e)
    | (p1, none) =>
      let (oid, p2) := p1.nextID
      let order : Order :=
        { exchangeID := oid,
          createdAt := (p2.lastCandle.getD pair {}).time,
          updatedAt := (p2.lastCandle.getD pair {}).time,
          pair := pair, side := side, otype := OrderType.limit,
          status := OrderStatus.new, price := limit, quantity := size }
      ({ p2 with orders := p2.orders ++ [order] }, Except.ok order)

/-- PaperWallet.CreateOrderStop (part_000:786-816). -/
def PaperWallet.createOrderStop (p : PaperWallet) (pair : String)
    (size limit : Rat) : PaperWallet × Except WalletError Order :=
  if size = 0 then (p, Except.error WalletError.invalidQuantity)
  else
    match p.validateFunds Side.sell pair size limit false with
    | (p1, some e) => (p1, Except.error e)
    | (p1, none) =>
      let (oid, p2) := p1.nextID
      let order : Order :=
        { exchangeID := oid,
          createdAt := (p2.lastCandle.getD pair {}).time,
          updatedAt := (p2.lastCandle.getD pair {}).time,
          pair := pair, side := Side.sell, otype := OrderType.stopLossLimit,
          status := OrderStatus.new, price := limit, stop := some limit,
          quantity := size }
      ({ p2 with orders := p2.orders ++ [order] }, Except.ok order)

/-- PaperWallet.CreateOrderOCO (part_000:653-748): reserves funds once, draws
a fresh group id and two fresh exchange ids, and appends the limit-maker leg
and the stop-loss leg sharing the group id. -/
def PaperWallet.createOrderOCO (p : PaperWallet) (side : Side) (pair : String)
    (size price stop stopLimit : Rat) : PaperWallet × Except WalletError (Order × Order) :=
  if size = 0 then (p, Except.error WalletError.invalidQuantity)
  else
    match p.validateFunds side pair size price false with
    | (p1, some e) => (p1, Except.error e)
    | (p1, none) =>
      let (groupID, p2) := p1.nextID
      let (id1, p3) := p2.nextID
      let limitMaker : Order :=
        { exchangeID := id1,
          createdAt := (p3.lastCandle.getD pair {}).time,
          updatedAt := (p3.lastCandle.getD pair {}).time,
          pair := pair, side := side, otype := OrderType.limitMaker,
          status := OrderStatus.new, price := price, quantity := size,
          groupID := some groupID,
          refPrice := (p3.lastCandle.getD pair {}).close }
      let (id2, p4) := p3.nextID
      let stopOrder : Order :=
        { exchangeID := id2,
          createdAt := (p4.lastCandle.getD pair {}).time,
          updatedAt := (p4.lastCandle.getD pair {}).time,
          pair := pair, side := side, otype := OrderType.stopLoss,
          status := OrderStatus.new, price := stopLimit, stop := some stop,
          quantity := size, groupID := some groupID,
          refPrice := (p4.lastCandle.getD pair {}).close }
      ({ p4 with orders := p4.orders ++ [limitMaker, stopOrder] },
       Except.ok (limitMaker, stopOrder))

/-- PaperWallet.Cancel (part_000:861-871): sets the status of every stored
order whose ExchangeID matches to Canceled — regardless of its current
status — and always returns success (`nil` error). -/
def PaperWallet.cancel (p : PaperWallet) (order : Order) : PaperWallet × Option WalletError :=
  ({ p with orders := p.orders.map (fun o =>
      if o.exchangeID = order.exchangeID then { o with status := OrderStatus.canceled } else o) },
   none)

/-- In-place update of one list element (`l[i] = f(l[i])`); out-of-range
indices leave the list unchanged. -/
def modifyIdx {α : Type} : List α → Nat → (α → α) → List α
  | [], _, _ => []
  | x :: xs, 0, f => f x :: xs
  | x :: xs, n + 1, f => x :: modifyIdx xs n f

theorem get?_modifyIdx {α : Type} (l : List α) (i j : Nat) (f : α → α) :
    (modifyIdx l i f).get? j = if i = j then (l.get? j).map f else l.get? j := by
  induction l generalizing i j with
  | nil => cases i <;> cases j <;> simp [modifyIdx]
  | cons x xs ih =>
    cases i with
    | zero => cases j <;> simp [modifyIdx]
    | succ n =>
      cases j with
      | zero => simp [modifyIdx]
      | succ m => simpa [modifyIdx, Nat.succ_inj] using ih n m

theorem length_modifyIdx {α : Type} (l : List α) (i : Nat) (f : α → α) :
    (modifyIdx l i f).length = l.length := by
  induction l generalizing i with
  | nil => simp [modifyIdx]
  | cons x xs ih => cases i <;> simp [modifyIdx, ih]

/-- The price at which a pending sell order fills against a candle, if it
fills (part_000:552-565): limit-like sells fill at the order price when
`candle.High >= order.Price`; stop-like sells fill at the stop price when
`candle.Low <= *order.Stop`. -/
def sellFillPrice (o : Order) (c : Candle) : Option Rat :=
  if (o.otype = OrderType.limit ∨ o.otype = OrderType.limitMaker ∨
      o.otype = OrderType.takeProfit ∨ o.otype = OrderType.takeProfitLimit) ∧
      c.high ≥ o.price then
    some o.price
  else if (o.otype = OrderType.stopLossLimit ∨ o.otype = OrderType.stopLoss) ∧
      c.low ≤ (o.stop.getD 0) then
    some (o.stop.getD 0)
  else
    none

/-- Mark order `i` with the fill/cancel timestamp and new status
(`p.orders[i].UpdatedAt =`, `p.orders[i].Status =`). -/
def PaperWallet.setOrderStatusAt (p : PaperWallet) (i : Nat) (t : Int)
    (st : OrderStatus) : PaperWallet :=
  { p with orders := modifyIdx p.orders i (fun o => { o with updatedAt := t, status := st }) }

/-- Index of the first element satisfying `f`, modelling the linear scan with
`break` in the OCO cancellation block. -/
def firstIdxWhere {α : Type} (f : α → Bool) : List α → Option Nat
  | [] => none
  | x :: xs => if f x then some 0 else (firstIdxWhere f xs).map (· + 1)

theorem firstIdxWhere_get? {α : Type} (f : α → Bool) (l : List α) (j : Nat)
    (h : firstIdxWhere f l = some j) : ∃ x, l.get? j = some x ∧ f x = true := by
  induction l generalizing j with
  | nil => simp [firstIdxWhere] at h
  | cons x xs ih =>
    simp only [firstIdxWhere] at h
    by_cases hx : f x
    · simp [hx] at h
      exact ⟨x, by simp [← h], hx⟩
    · simp [hx] at h
      obtain ⟨m, hm, hj⟩ := h
      obtain ⟨y, hy, hfy⟩ := ih m hm
      exact ⟨y, by simpa [← hj] using hy, hfy⟩

/-- The OCO cancellation block (part_000:567-577): cancel the first *other*
order that shares the given group id, stamping it with the candle time.  Only
status and update time change; in particular balances are untouched. -/
def ocoSiblingPred (g : Int) (eid : Int) (o : Order) : Bool :=
  o.groupID == some g && o.exchangeID != eid

def PaperWallet.cancelGroupSibling (p : PaperWallet) (g : Int) (eid : Int)
    (t : Int) : PaperWallet :=
  match firstIdxWhere (ocoSiblingPred g eid) p.orders with
  | none => p
  | some j =>
    let cancelOne := fun (o : Order) => { o with status := OrderStatus.canceled, updatedAt := t }
    { p with orders := modifyIdx p.orders j cancelOne }

/-- One iteration of the OnCandle order-matching loop (part_000:526-594) for
the order at index `i`; `ord` ranges over the snapshot read at the start of
the iteration (Go's `order` loop copy, read from the current slice). -/
def PaperWallet.onCandleStep (c : Candle) (p : PaperWallet) (i : Nat) : PaperWallet :=
  match p.orders.get? i with
  | none => p
  | some ord =>
    if ord.pair ≠ c.pair ∨ ord.status ≠ OrderStatus.new then p
    else
      let p := p.ensureVolume c.pair
      let aq := splitAssetQuote ord.pair
      let asset := aq.1
      let quote := aq.2
      -- buy branch (part_000:536-549): fills at the order price when
      -- order.Price >= candle.Close
      let p :=
        if ord.side = Side.buy ∧ ord.price ≥ c.close then
          let p := p.ensureAsset asset
          let p := p.addVolume c.pair (ord.price * ord.quantity)
          let p := p.setOrderStatusAt i c.time OrderStatus.filled
          let p := p.updateAveragePrice ord.side ord.pair ord.quantity ord.price
          let p := p.modifyAsset asset (fun a => { a with free := a.free + ord.quantity })
          p.modifyAsset quote (fun a => { a with lock := a.lock - ord.price * ord.quantity })
        else p
      -- sell branch (part_000:551-593)
      if ord.side = Side.sell then
        match sellFillPrice ord c with
        | none => p
        | some orderPrice =>
          let p :=
            match ord.groupID with
            | some g => p.cancelGroupSibling g ord.exchangeID c.time
            | none => p
          let p := p.ensureAsset quote
          let orderVolume := ord.quantity * orderPrice
          let p := p.addVolume c.pair orderVolume
          let p := p.setOrderStatusAt i c.time OrderStatus.filled
          let p := p.updateAveragePrice ord.side ord.pair ord.quantity orderPrice
          let p := p.modifyAsset asset (fun a => { a with lock := a.lock - ord.quantity })
          p.modifyAsset quote (fun a => { a with free := a.free + ord.quantity * orderPrice })
      else p

/-- The `if candle.Complete` block of OnCandle (part_000:596-620): value every
held asset against its last candle (short positions via the liquidation
formula), append one sample per asset to `assetValues`, and append one equity
sample (`total` + base-coin free and locked) to `equityValues`. -/
def PaperWallet.appendEquity (p : PaperWallet) (c : Candle) : PaperWallet :=
  let step := fun (acc : Rat × PaperWallet) (entry : String × AssetInfo) =>
    let asset := entry.1
    let info := entry.2
    let amount := info.free + info.lock
    let pr := toUpperStr (asset ++ p.baseCoin)
    let total' :=
      if amount < 0 then
        let v := |amount|
        acc.1 + (2 * v * p.avgShortPrice.getD pr 0 - v * (p.lastCandle.getD pr {}).close)
      else
        acc.1 + amount * (p.lastCandle.getD pr {}).close
    let w := acc.2
    let newSamples :=
      w.assetValues.getD asset [] ++ [{ time := c.time, value := amount * (p.lastCandle.getD pr {}).close }]
    (total', { w with assetValues := w.assetValues.set asset newSamples })
  let r := List.foldl step ((0 : Rat), p) p.assets
  let total := r.1
  let w := r.2
  let baseCoinInfo := w.assets.getD p.baseCoin {}
  { w with equityValues :=
      w.equityValues ++ [{ time := c.time, value := total + baseCoinInfo.lock + baseCoinInfo.free }] }

/-- PaperWallet.OnCandle (part_000:517-621): record the candle as last (and
possibly first) for its pair, run the matching loop over the order list, and
on a complete candle append the equity sample.  There is no staleness check:
every candle, stale or not, is processed. -/
def PaperWallet.onCandle (p : PaperWallet) (c : Candle) : PaperWallet :=
  let p := { p with lastCandle := p.lastCandle.set c.pair c }
  let p := if p.fistCandle.hasKey c.pair then p else { p with fistCandle := p.fistCandle.set c.pair c }
  let p := List.foldl (PaperWallet.onCandleStep c) p (List.range p.orders.length)
  if c.complete then p.appendEquity c else p

/-- The execution price used by Controller.calculateProfit
(scheduler.go:319-322, 349-352, 371-374): stop-loss orders use the stop
price, everything else the order price. -/
def execPrice (o : Order) : Rat :=
  if o.otype = OrderType.stopLoss ∨ o.otype = OrderType.stopLossLimit then o.stop.getD 0
  else o.price

/-- The storage query of Controller.calculateProfit (scheduler.go:298-302):
filled orders of the same pair with update time at or before the reference
order's, in storage order. -/
def storageFilteredOrders (store : List Order) (o : Order) : List Order :=
  store.filter (fun ord =>
    decide (ord.updatedAt ≤ o.updatedAt) &&
    decide (ord.status = OrderStatus.filled) &&
    decide (ord.pair = o.pair))

/-- One iteration of the replay loop of Controller.calculateProfit
(scheduler.go:311-341) over the accumulator (quantity, avgPriceLong,
avgPriceShort); the reference order itself is skipped by storage id. -/
def replayStep (oid : Int) (acc : Rat × Rat × Rat) (ord : Order) : Rat × Rat × Rat :=
  let quantity := acc.1
  let avgPriceLong := acc.2.1
  let avgPriceShort := acc.2.2
  if oid = ord.id then acc
  else
    let price := execPrice ord
    let diff := if ord.side = Side.sell then -ord.quantity else ord.quantity
    let avgPriceLong' :=
      if ord.side = Side.buy ∧ quantity + diff ≥ 0 then
        (ord.quantity * price + avgPriceLong * |quantity|) / (ord.quantity + |quantity|)
      else avgPriceLong
    let avgPriceShort' :=
      if ¬ (ord.side = Side.buy ∧ quantity + diff ≥ 0) ∧
         (ord.side = Side.sell ∧ quantity + diff ≤ 0) then
        (ord.quantity * price + avgPriceShort * |quantity|) / (ord.quantity + |quantity|)
      else avgPriceShort
    let quantity' := if ord.side = Side.buy then quantity + ord.quantity else quantity - ord.quantity
    (quantity', avgPriceLong', avgPriceShort')

/-- order.Controller.calculateProfit (scheduler.go:295-380): stateless replay
of all previously filled orders of the pair, then the (value, percent) profit
of the reference order when it closes or reduces the replayed position. -/
def calculateProfit (store : List Order) (o : Order) : Rat × Rat :=
  let orders := storageFilteredOrders store o
  let acc := List.foldl (replayStep o.id) ((0 : Rat), (0 : Rat), (0 : Rat)) orders
  let quantity := acc.1
  let avgPriceLong := acc.2.1
  let avgPriceShort := acc.2.2
  if quantity = 0 then (0, 0)
  else if o.side = Side.buy ∧ quantity < 0 then
    -- profit short
    let price := execPrice o
    let profitValue := (avgPriceShort - price) * o.quantity
    (profitValue, profitValue / o.quantity / avgPriceShort)
  else if o.side = Side.sell ∧ quantity > 0 then
    -- profit long
    let price := execPrice o
    let profitValue := (price - avgPriceLong) * o.quantity
    (profitValue, profitValue / o.quantity / avgPriceLong)
  else (0, 0)

/-- model.Dataframe: the per-pair OHLCV columns maintained by the strategy
controller (`open` is a Lean keyword, hence `openP`). -/
structure Dataframe where
  pair : String := ""
  close : List Rat := []
  openP : List Rat := []
  high : List Rat := []
  low : List Rat := []
  volume : List Rat := []
  time : List Int := []
  lastUpdate : Int := 0
  metadata : SMap (List Rat) := []
deriving DecidableEq

/-- strategy.Controller.updateDataFrame (controller.go:56-80): overwrite the
last row when the candle carries the same timestamp, otherwise append a row. -/
def updateDataFrame (df : Dataframe) (c : Candle) : Dataframe :=
  if df.time.getLast? = some c.time then
    let last := df.time.length - 1
    let newMeta := List.foldl
      (fun (m : SMap (List Rat)) (kv : String × Rat) => m.set kv.1 ((m.getD kv.1 []).set last kv.2))
      df.metadata c.metadata
    { df with
      close := df.close.set last c.close,
      openP := df.openP.set last c.openP,
      high := df.high.set last c.high,
      low := df.low.set last c.low,
      volume := df.volume.set last c.volume,
      time := df.time.set last c.time,
      metadata := newMeta }
  else
    let newMeta := List.foldl
      (fun (m : SMap (List Rat)) (kv : String × Rat) => m.set kv.1 (m.getD kv.1 [] ++ [kv.2]))
      df.metadata c.metadata
    { df with
      close := df.close ++ [c.close],
      openP := df.openP ++ [c.openP],
      high := df.high ++ [c.high],
      low := df.low ++ [c.low],
      volume := df.volume ++ [c.volume],
      time := df.time ++ [c.time],
      lastUpdate := c.time,
      metadata := newMeta }

/-- strategy.Controller state (controller.go:22-27).  The strategy itself is
an external collaborator; its `Indicators` and `OnCandle` callbacks are
passed in as opaque dataframe transformers. -/
structure StrategyController where
  dataframe : Dataframe
  started : Bool := false
  warmupPeriod : Nat := 0
deriving DecidableEq

/-- The late-candle guard of strategy.Controller.OnCandle (controller.go:83):
`len(s.dataframe.Time) > 0 && candle.Time.Before(last)`. -/
def isLateCandle (df : Dataframe) (c : Candle) : Bool :=
  match df.time.getLast? with
  | some t => decide (c.time < t)
  | none => false

/-- strategy.Controller.OnCandle (controller.go:82-96): silently drop late
candles (log only), otherwise update the dataframe and — past the warmup
period — run the strategy's Indicators and OnCandle callbacks. -/
def StrategyController.onCandle (indicators strategyOnCandle : Dataframe → Dataframe)
    (s : StrategyController) (c : Candle) : StrategyController :=
  if isLateCandle s.dataframe c then s
  else
    let df := updateDataFrame s.dataframe c
    if df.close.length ≥ s.warmupPeriod then
      let df := indicators df
      if s.started then { s with dataframe := strategyOnCandle df }
      else { s with dataframe := df }
    else { s with dataframe := df }

theorem PaperWallet.getAsset_modifyAsset (p : PaperWallet) (k : String)
    (f : AssetInfo → AssetInfo) (a : String) :
    (p.modifyAsset k f).getAsset a = if k = a then f (p.getAsset k) else p.getAsset a := by
  unfold PaperWallet.modifyAsset PaperWallet.getAsset
  simp [SMap.getD_set]

theorem PaperWallet.getAsset_ensureAsset (p : PaperWallet) (k : String) (a : String) :
    (p.ensureAsset k).getAsset a = p.getAsset a := by
  unfold PaperWallet.ensureAsset PaperWallet.getAsset
  split
  · rfl
  · rename_i hk
    rw [SMap.getD_set]
    split
    · rename_i hka
      subst hka
      exact (SMap.getD_hasKey_false _ _ _ (by simpa using hk)).symm
    · rfl

theorem PaperWallet.ensureAsset_orders (p : PaperWallet) (k : String) :
    (p.ensureAsset k).orders = p.orders := by
  unfold PaperWallet.ensureAsset; split <;> rfl

theorem PaperWallet.ensureAsset_counter (p : PaperWallet) (k : String) :
    (p.ensureAsset k).counter = p.counter := by
  unfold PaperWallet.ensureAsset; split <;> rfl

theorem PaperWallet.ensureVolume_orders (p : PaperWallet) (k : String) :
    (p.ensureVolume k).orders = p.orders := by
  unfold PaperWallet.ensureVolume; split <;> rfl

theorem PaperWallet.ensureVolume_counter (p : PaperWallet) (k : String) :
    (p.ensureVolume k).counter = p.counter := by
  unfold PaperWallet.ensureVolume; split <;> rfl

theorem PaperWallet.ensureVolume_assets (p : PaperWallet) (k : String) :
    (p.ensureVolume k).assets = p.assets := by
  unfold PaperWallet.ensureVolume; split <;> rfl

theorem PaperWallet.modifyAsset_orders (p : PaperWallet) (k : String)
    (f : AssetInfo → AssetInfo) : (p.modifyAsset k f).orders = p.orders := rfl

theorem PaperWallet.modifyAsset_counter (p : PaperWallet) (k : String)
    (f : AssetInfo → AssetInfo) : (p.modifyAsset k f).counter = p.counter := rfl

theorem PaperWallet.updateAveragePrice_assets (p : PaperWallet) (side : Side)
    (pair : String) (amount value : Rat) :
    (p.updateAveragePrice side pair amount value).assets = p.assets := by
  simp only [PaperWallet.updateAveragePrice]
  repeat' split
  all_goals rfl

theorem PaperWallet.updateAveragePrice_orders (p : PaperWallet) (side : Side)
    (pair : String) (amount value : Rat) :
    (p.updateAveragePrice side pair amount value).orders = p.orders := by
  simp only [PaperWallet.updateAveragePrice]
  repeat' split
  all_goals rfl

theorem PaperWallet.updateAveragePrice_counter (p : PaperWallet) (side : Side)
    (pair : String) (amount value : Rat) :
    (p.updateAveragePrice side pair amount value).counter = p.counter := by
  simp only [PaperWallet.updateAveragePrice]
  repeat' split
  all_goals rfl

theorem PaperWallet.applyReserve_orders (p : PaperWallet) (side : Side) (pair : String)
    (amount value : Rat) (fill : Bool) :
    (p.applyReserve side pair amount value fill).orders = p.orders := by
  cases side <;> simp only [PaperWallet.applyReserve] <;> repeat' split
  all_goals
    simp [PaperWallet.modifyAsset_orders, PaperWallet.updateAveragePrice_orders]

theorem PaperWallet.applyReserve_counter (p : PaperWallet) (side : Side) (pair : String)
    (amount value : Rat) (fill : Bool) :
    (p.applyReserve side pair amount value fill).counter = p.counter := by
  cases side <;> simp only [PaperWallet.applyReserve] <;> repeat' split
  all_goals
    simp [PaperWallet.modifyAsset_counter, PaperWallet.updateAveragePrice_counter]

theorem PaperWallet.validateFunds_orders (p : PaperWallet) (side : Side) (pair : String)
    (amount value : Rat) (fill : Bool) :
    (p.validateFunds side pair amount value fill).1.orders = p.orders := by
  simp only [PaperWallet.validateFunds]
  split <;>
    simp [PaperWallet.applyReserve_orders, PaperWallet.ensureAsset_orders]

theorem PaperWallet.validateFunds_counter (p : PaperWallet) (side : Side) (pair : String)
    (amount value : Rat) (fill : Bool) :
    (p.validateFunds side pair amount value fill).1.counter = p.counter := by
  simp only [PaperWallet.validateFunds]
  split <;>
    simp [PaperWallet.applyReserve_counter, PaperWallet.ensureAsset_counter]

/-- The wallet of the spec's §8 scenario: starting balance {USDT: 10000}. -/
def scenarioW0 : PaperWallet :=
  { baseCoin := "USDT", assets := [("USDT", { free := 10000, lock := 0 })] }

/-- Bar 1 of the scenario: close 10. -/
def scenarioBar1 : Candle :=
  { pair := "BTCUSDT", time := 1, openP := 10, close := 10, low := 10, high := 10, complete := true }

/-- Bar 2 of the scenario: close 12. -/
def scenarioBar2 : Candle :=
  { pair := "BTCUSDT", time := 2, openP := 12, close := 12, low := 12, high := 12, complete := true }

/-- Bar 3 of the scenario: close 8. -/
def scenarioBar3 : Candle :=
  { pair := "BTCUSDT", time := 3, openP := 8, close := 8, low := 8, high := 8, complete := true }

/-- Market buy of 50 units on bar 1. -/
def scenarioBuy : PaperWallet × Except WalletError Order :=
  (scenarioW0.onCandle scenarioBar1).createOrderMarket Side.buy "BTCUSDT" 50

/-- Closing market sell of 50 units on bar 3. -/
def scenarioSell : PaperWallet × Except WalletError Order :=
  ((scenarioBuy.1.onCandle scenarioBar2).onCandle scenarioBar3).createOrderMarket
    Side.sell "BTCUSDT" 50

/-- The stored buy order, with the storage id assigned by storage.CreateOrder. -/
def scenarioBuyOrder : Order :=
  match scenarioBuy.2 with
  | Except.ok o => { o with id := 1 }
  | Except.error _ => {}

/-- The stored closing sell order, with its storage id. -/
def scenarioSellOrder : Order :=
  match scenarioSell.2 with
  | Except.ok o => { o with id := 2 }
  | Except.error _ => {}

/-- The order log as persisted by the order controller. -/
def scenarioStore : List Order := [scenarioBuyOrder, scenarioSellOrder]
/-- C8: a wallet with exactly one equity sample. -/
def singleSampleWallet : PaperWallet :=
  { equityValues := [{ time := 1, value := 100 }] }

unseal Rat.mul Rat.add Rat.sub Rat.inv in
/-- C8. The claim states that with fewer than 2 equity samples MaxDrawdown
returns zero drawdown and zero timestamps.  This holds for zero samples, but
the code's guard is `len(p.equityValues) < 1`, so with exactly one sample the
`math.MaxFloat64` initializer of the accumulator leaks into the result: the
drawdown is MaxFloat64 / firstValue ≠ 0 and both timestamps are the first
sample's (non-zero) timestamp 1, not the zero time. -/
theorem C8_single_sample_maxdrawdown :
    PaperWallet.maxDrawdown { equityValues := [] } = (0, 0, 0) ∧
    singleSampleWallet.maxDrawdown = (maxFloat64 / 100, 1, 1) ∧
    maxFloat64 / 100 ≠ 0 ∧ (1 : Int) ≠ 0 := by
  refine ⟨rfl, rfl, by decide, by decide⟩

/-- C9: a strictly increasing equity series. -/
def increasingWallet : PaperWallet :=
  { equityValues := [{ time := 1, value := 100 }, { time := 2, value := 110 }] }

unseal Rat.mul Rat.add Rat.sub Rat.inv in
/-- C9. The claim states that for a monotonically increasing equity series
MaxDrawdown returns 0.  On the strictly increasing series [100, 110] the code
returns 1/10: the loop records the (positive) consecutive delta because
`localMin < globalMin` compares it against the MaxFloat64 initializer, so the
smallest positive gain divided by its base is returned instead of 0. -/
theorem C9_increasing_maxdrawdown_positive :
    increasingWallet.equityValues.map AssetValue.value = [100, 110] ∧
    (100 : Rat) < 110 ∧
    increasingWallet.maxDrawdown.1 = 1 / 10 ∧ (1 : Rat) / 10 ≠ 0 := by
  refine ⟨by decide, by decide, by decide, by decide⟩

unseal Rat.mul Rat.add Rat.sub Rat.inv in
/-- C1. The incremental average-price algorithm and the stateless replay
algorithm do NOT agree on the closing order of the §8 scenario (buy 50@10,
then market-sell 50@8): `validateFunds` deducts the sold quantity from the
asset's free balance *before* calling `updateAveragePrice`, so the update
sees `actualQty = 0`, takes the "no previous position" branch, and never
computes a realized profit (the ghost `profitLog` stays empty); the
controller's replay (`calculateProfit`) computes the realized loss -100 for
the very same closing order. -/
theorem C1_incremental_replay_divergence :
    scenarioSell.1.profitLog = [] ∧
    scenarioSellOrder.side = Side.sell ∧
    scenarioSellOrder.status = OrderStatus.filled ∧
    scenarioSellOrder.price = 8 ∧ scenarioSellOrder.quantity = 50 ∧
    calculateProfit scenarioStore scenarioSellOrder = (-100, -1 / 5) := by
  decide

unseal Rat.mul Rat.add Rat.sub Rat.inv in
/-- C3. The §8 scenario behaves as claimed: starting from {USDT: 10000} with
bar closes [10, 12, 8], the market buy of 50 units on bar 1 leaves BTC free =
50 and USDT free = 9500; the market sell of 50 units on bar 3 leaves USDT
free = 9900, and the realized loss computed by the order controller's profit
attribution for the closing sell is (8 - 10) * 50 = -100. -/
theorem C3_market_scenario :
    (scenarioBuy.1.getAsset "BTC").free = 50 ∧
    (scenarioBuy.1.getAsset "USDT").free = 9500 ∧
    (scenarioSell.1.getAsset "USDT").free = 9900 ∧
    (calculateProfit scenarioStore scenarioSellOrder).1 = (8 - 10) * 50 := by
  decide

/-- A bar at time 10 establishing the last-seen candle for the pair. -/
def lateBaseCandle : Candle :=
  { pair := "BTCUSDT", time := 10, openP := 10, close := 10, low := 10, high := 10, complete := true }

/-- A stale bar: its timestamp 5 is before the last seen timestamp 10. -/
def staleCandle : Candle :=
  { pair := "BTCUSDT", time := 5, openP := 6, close := 6, low := 6, high := 6, complete := true }

/-- The engine state after seeing the bar at time 10. -/
def staleWallet : PaperWallet := scenarioW0.onCandle lateBaseCandle

unseal Rat.mul Rat.add Rat.sub Rat.inv in
/-- C5 counterexample.  The claim says a bar older than the last seen bar for
the pair is rejected with all engine state unchanged; but PaperWallet.OnCandle
has no staleness check: feeding a bar with timestamp 5 after one with
timestamp 10 overwrites the last-bar record with the stale bar and changes
engine state (an equity sample is appended as well). -/
theorem C5_stale_bar_processed :
    staleCandle.time < (staleWallet.lastCandle.getD "BTCUSDT" {}).time ∧
    (staleWallet.onCandle staleCandle).lastCandle.getD "BTCUSDT" {} = staleCandle ∧
    staleWallet.onCandle staleCandle ≠ staleWallet := by
  decide

theorem isLateCandle_true (df : Dataframe) (c : Candle) (t : Int)
    (hlast : df.time.getLast? = some t) (hlate : c.time < t) :
    isLateCandle df c = true := by
  unfold isLateCandle
  rw [hlast]
  simpa using hlate

/-- C5 (amended).  The late-candle rejection lives in the strategy
controller, not the matching engine: when a candle's timestamp is before the
last dataframe timestamp for the pair, strategy.Controller.OnCandle drops it
silently (a log line only) and the controller's state — in particular the
dataframe — is completely unchanged, for every strategy. -/
theorem C5_amended_strategy_drops_late_candle
    (indicators strategyOnCandle : Dataframe → Dataframe)
    (s : StrategyController) (c : Candle) (t : Int)
    (hlast : s.dataframe.time.getLast? = some t) (hlate : c.time < t) :
    s.onCandle indicators strategyOnCandle c = s := by
  unfold StrategyController.onCandle
  rw [isLateCandle_true s.dataframe c t hlast hlate]
  simp

/-- A strategy controller whose dataframe has one row at time 10. -/
def lateCtrl : StrategyController :=
  { dataframe := { pair := "BTCUSDT", time := [10] } }

/-- C5 witness: the amended theorem instantiated at a controller with last
dataframe time 10 receiving a candle at time 5. -/
theorem C5_amended_witness :
    lateCtrl.dataframe.time.getLast? = some 10 ∧ ((5 : Int) < 10) ∧
    lateCtrl.onCandle id id { pair := "BTCUSDT", time := 5 } = lateCtrl :=
  ⟨rfl, by decide,
    C5_amended_strategy_drops_late_candle id id lateCtrl { pair := "BTCUSDT", time := 5 }
      10 rfl (by decide)⟩

/-- An order that has already been filled. -/
def filledOrder : Order :=
  { exchangeID := 7, pair := "BTCUSDT", side := Side.buy, status := OrderStatus.filled }

/-- A wallet whose order log holds only the filled order. -/
def filledOrderWallet : PaperWallet := { orders := [filledOrder] }

/-- C6 counterexample.  The claim says cancelling an already-Filled order is
a no-op success that leaves it Filled; PaperWallet.Cancel does return success
(`nil`), but it is not a no-op: it unconditionally overwrites the status of
every order with the matching ExchangeID with Canceled. -/
theorem C6_cancel_filled_not_noop :
    (filledOrderWallet.cancel filledOrder).2 = none ∧
    (filledOrderWallet.cancel filledOrder).1.orders.get? 0 =
      some { filledOrder with status := OrderStatus.canceled } ∧
    OrderStatus.canceled ≠ OrderStatus.filled := by
  refine ⟨rfl, rfl, by decide⟩

/-- C6 (amended).  Cancel always returns success and sets the status of every
stored order whose ExchangeID matches the argument to Canceled — even one
already Filled — while every other piece of engine state (balances, average
prices, volume, candles, equity history, counter) is unchanged. -/
theorem C6_amended_cancel_overwrites (p : PaperWallet) (order : Order) (k : Nat)
    (o : Order) (hk : p.orders.get? k = some o)
    (hid : o.exchangeID = order.exchangeID) :
    (p.cancel order).2 = none ∧
    (p.cancel order).1.orders.get? k = some { o with status := OrderStatus.canceled } ∧
    (p.cancel order).1.assets = p.assets ∧
    (p.cancel order).1.avgLongPrice = p.avgLongPrice ∧
    (p.cancel order).1.avgShortPrice = p.avgShortPrice ∧
    (p.cancel order).1.volume = p.volume ∧
    (p.cancel order).1.lastCandle = p.lastCandle ∧
    (p.cancel order).1.equityValues = p.equityValues ∧
    (p.cancel order).1.counter = p.counter := by
  unfold PaperWallet.cancel
  refine ⟨rfl, ?_, rfl, rfl, rfl, rfl, rfl, rfl, rfl⟩
  rw [List.get?_eq_getElem?, List.getElem?_map, ← List.get?_eq_getElem?, hk]
  simp [hid]

/-- C6 witness: the amended theorem instantiated at the filled order. -/
theorem C6_amended_witness :
    filledOrderWallet.orders.get? 0 = some filledOrder ∧
    ((filledOrderWallet.cancel filledOrder).2 = none ∧
     (filledOrderWallet.cancel filledOrder).1.orders.get? 0 =
       some { filledOrder with status := OrderStatus.canceled } ∧
     (filledOrderWallet.cancel filledOrder).1.assets = filledOrderWallet.assets ∧
     (filledOrderWallet.cancel filledOrder).1.avgLongPrice = filledOrderWallet.avgLongPrice ∧
     (filledOrderWallet.cancel filledOrder).1.avgShortPrice = filledOrderWallet.avgShortPrice ∧
     (filledOrderWallet.cancel filledOrder).1.volume = filledOrderWallet.volume ∧
     (filledOrderWallet.cancel filledOrder).1.lastCandle = filledOrderWallet.lastCandle ∧
     (filledOrderWallet.cancel filledOrder).1.equityValues = filledOrderWallet.equityValues ∧
     (filledOrderWallet.cancel filledOrder).1.counter = filledOrderWallet.counter) :=
  ⟨rfl, C6_amended_cancel_overwrites filledOrderWallet filledOrder 0 filledOrder rfl rfl⟩

/-- The wallet holding a buy-side OCO pair (limit-maker at 10, stop at 8 with
stop-limit 7) created on the bar at close 10. -/
def ocoBuyWallet : PaperWallet :=
  ((scenarioW0.onCandle scenarioBar1).createOrderOCO Side.buy "BTCUSDT" 1 10 8 7).1

/-- A bar at close 9 that fills the buy limit-maker leg (10 >= 9). -/
def ocoBuyFillCandle : Candle :=
  { pair := "BTCUSDT", time := 2, openP := 9, close := 9, low := 9, high := 9, complete := false }

unseal Rat.mul Rat.add Rat.sub Rat.inv in
/-- C4 counterexample.  The claim says a fill of either side of an OCO group
cancels the sibling; but the group-cancellation block of OnCandle lives only
in the sell branch.  For a buy-side OCO group, the limit-maker leg fills
(order.Price 10 >= close 9) while its sibling stop order — same group id —
stays `New`, not `Canceled`. -/
theorem C4_buy_oco_sibling_not_canceled :
    (ocoBuyWallet.orders.get? 0).map Order.groupID = some (some 1) ∧
    (ocoBuyWallet.orders.get? 1).map Order.groupID = some (some 1) ∧
    (ocoBuyWallet.orders.get? 0).map Order.side = some Side.buy ∧
    ((ocoBuyWallet.onCandle ocoBuyFillCandle).orders.get? 0).map Order.status =
      some OrderStatus.filled ∧
    ((ocoBuyWallet.onCandle ocoBuyFillCandle).orders.get? 1).map Order.status =
      some OrderStatus.new := by
  decide

/-- C4 (amended).  When a *sell* order of an OCO group fills during the
OnCandle matching loop, the first other order sharing the group id is set to
`Canceled` with the fill candle's timestamp — its price, quantity and every
other field are untouched — and the sibling-cancellation block itself has no
effect on balances, average prices, traded volume or equity history.
Buy-side OCO fills perform no such cancellation. -/
theorem C4_amended_sell_fill_cancels_sibling (p : PaperWallet) (c : Candle)
    (i j : Nat) (ord sib : Order) (g : Int) (pr : Rat)
    (hi : p.orders.get? i = some ord)
    (hpair : ord.pair = c.pair) (hnew : ord.status = OrderStatus.new)
    (hside : ord.side = Side.sell) (hg : ord.groupID = some g)
    (hfill : sellFillPrice ord c = some pr)
    (hj : firstIdxWhere (ocoSiblingPred g ord.exchangeID) p.orders = some j)
    (hsib : p.orders.get? j = some sib) :
    (p.onCandleStep c i).orders.get? j =
      some { sib with status := OrderStatus.canceled, updatedAt := c.time } ∧
    (p.cancelGroupSibling g ord.exchangeID c.time).assets = p.assets ∧
    (p.cancelGroupSibling g ord.exchangeID c.time).avgLongPrice = p.avgLongPrice ∧
    (p.cancelGroupSibling g ord.exchangeID c.time).avgShortPrice = p.avgShortPrice ∧
    (p.cancelGroupSibling g ord.exchangeID c.time).volume = p.volume ∧
    (p.cancelGroupSibling g ord.exchangeID c.time).equityValues = p.equityValues := by
  have hij : i ≠ j := by
    intro he
    subst he
    obtain ⟨x, hx, hpx⟩ := firstIdxWhere_get? (ocoSiblingPred g ord.exchangeID) p.orders i hj
    rw [hi] at hx
    injection hx with hx
    subst hx
    simp [ocoSiblingPred] at hpx
  have hcond : ¬ (ord.pair ≠ c.pair ∨ ord.status ≠ OrderStatus.new) := by
    simp [hpair, hnew]
  have hbuy : ¬ (ord.side = Side.buy ∧ ord.price ≥ c.close) := by
    simp [hside]
  refine ⟨?_, ?_, ?_, ?_, ?_, ?_⟩
  · simp only [PaperWallet.onCandleStep, hi, if_neg hcond, if_neg hbuy, if_pos hside,
      hfill, hg]
    simp only [PaperWallet.cancelGroupSibling, PaperWallet.ensureVolume_orders, hj]
    simp only [PaperWallet.setOrderStatusAt, PaperWallet.modifyAsset, PaperWallet.addVolume,
      PaperWallet.ensureAsset_orders, PaperWallet.updateAveragePrice_orders]
    simp only [get?_modifyIdx, if_neg hij, if_pos rfl, hsib, Option.map_some]
    simp
  all_goals
    unfold PaperWallet.cancelGroupSibling
    split <;> rfl

/-- The limit-maker leg of a sell OCO group. -/
def sellLeg1 : Order :=
  { exchangeID := 2, pair := "BTCUSDT", side := Side.sell, otype := OrderType.limitMaker,
    status := OrderStatus.new, price := 12, quantity := 1, groupID := some 1 }

/-- The stop-loss leg of the same sell OCO group. -/
def sellLeg2 : Order :=
  { exchangeID := 3, pair := "BTCUSDT", side := Side.sell, otype := OrderType.stopLoss,
    status := OrderStatus.new, price := 7, stop := some 8, quantity := 1, groupID := some 1 }

/-- A wallet holding both legs of the sell OCO group. -/
def ocoSellWallet : PaperWallet :=
  { assets := [("USDT", { free := 10000, lock := 0 }), ("BTC", { free := 0, lock := 1 })],
    orders := [sellLeg1, sellLeg2] }

/-- A bar whose high 13 fills the limit-maker sell at 12. -/
def ocoSellFillCandle : Candle :=
  { pair := "BTCUSDT", time := 2, openP := 13, close := 13, low := 12, high := 13, complete := false }

unseal Rat.mul Rat.add Rat.sub Rat.inv in
/-- C4 witness: the amended theorem instantiated at the concrete sell OCO
pair, where the limit-maker leg fills at 12 and the stop leg is canceled. -/
theorem C4_amended_witness :
    sellFillPrice sellLeg1 ocoSellFillCandle = some 12 ∧
    firstIdxWhere (ocoSiblingPred 1 sellLeg1.exchangeID) ocoSellWallet.orders = some 1 ∧
    ((ocoSellWallet.onCandleStep ocoSellFillCandle 0).orders.get? 1 =
      some { sellLeg2 with status := OrderStatus.canceled, updatedAt := ocoSellFillCandle.time } ∧
     (ocoSellWallet.cancelGroupSibling 1 sellLeg1.exchangeID ocoSellFillCandle.time).assets =
       ocoSellWallet.assets ∧
     (ocoSellWallet.cancelGroupSibling 1 sellLeg1.exchangeID ocoSellFillCandle.time).avgLongPrice =
       ocoSellWallet.avgLongPrice ∧
     (ocoSellWallet.cancelGroupSibling 1 sellLeg1.exchangeID ocoSellFillCandle.time).avgShortPrice =
       ocoSellWallet.avgShortPrice ∧
     (ocoSellWallet.cancelGroupSibling 1 sellLeg1.exchangeID ocoSellFillCandle.time).volume =
       ocoSellWallet.volume ∧
     (ocoSellWallet.cancelGroupSibling 1 sellLeg1.exchangeID ocoSellFillCandle.time).equityValues =
       ocoSellWallet.equityValues) :=
  ⟨by decide, by decide,
    C4_amended_sell_fill_cancels_sibling ocoSellWallet ocoSellFillCandle 0 1 sellLeg1 sellLeg2
      1 12 rfl rfl rfl rfl rfl (by decide) (by decide) rfl⟩

theorem PaperWallet.ensureAsset2_fields (p : PaperWallet) (a q : String) :
    (p.ensureAsset a).ensureAsset q =
      { p with assets := ((p.ensureAsset a).ensureAsset q).assets } := by
  unfold PaperWallet.ensureAsset
  split <;> split <;> rfl

/-- C7.  Whenever validateFunds reports InsufficientFunds — the error every
order-placement operation returns synchronously in that case — the wallet is
unchanged except for the `assets` map, and even there every asset's free and
locked quantities read back exactly as before (the error path only creates
zero-valued entries): the reservation is all-or-nothing. -/
theorem C7_insufficient_funds_frame (p : PaperWallet) (side : Side) (pair : String)
    (amount value : Rat) (fill : Bool) (e : WalletError)
    (h : (p.validateFunds side pair amount value fill).2 = some e) :
    (∀ a, (p.validateFunds side pair amount value fill).1.getAsset a = p.getAsset a) ∧
    (p.validateFunds side pair amount value fill).1 =
      { p with assets := (p.validateFunds side pair amount value fill).1.assets } := by
  have herr : (p.validateFunds side pair amount value fill).1 =
      (p.ensureAsset (splitAssetQuote pair).1).ensureAsset (splitAssetQuote pair).2 := by
    simp only [PaperWallet.validateFunds] at h ⊢
    split at h
    · rename_i hC
      rw [if_pos hC]
    · simp at h
  rw [herr]
  refine ⟨fun a => ?_, PaperWallet.ensureAsset2_fields p _ _⟩
  rw [PaperWallet.getAsset_ensureAsset, PaperWallet.getAsset_ensureAsset]

unseal Rat.mul Rat.add Rat.sub Rat.inv in
/-- C7 witness: a buy of 10000 units at price 10 against a wallet holding
only 10000 USDT is rejected with InsufficientFunds and mutates nothing. -/
theorem C7_witness :
    (scenarioW0.validateFunds Side.buy "BTCUSDT" 10000 10 false).2 =
      some (WalletError.insufficientFunds "BTCUSDT" 10000) ∧
    (scenarioW0.validateFunds Side.buy "BTCUSDT" 10000 10 false).1.getAsset "USDT" =
      scenarioW0.getAsset "USDT" ∧
    (scenarioW0.validateFunds Side.buy "BTCUSDT" 10000 10 false).1 =
      { scenarioW0 with
         assets := (scenarioW0.validateFunds Side.buy "BTCUSDT" 10000 10 false).1.assets } :=
  ⟨by decide,
    (C7_insufficient_funds_frame scenarioW0 Side.buy "BTCUSDT" 10000 10 false
      (WalletError.insufficientFunds "BTCUSDT" 10000) (by decide)).1 "USDT",
    (C7_insufficient_funds_frame scenarioW0 Side.buy "BTCUSDT" 10000 10 false
      (WalletError.insufficientFunds "BTCUSDT" 10000) (by decide)).2⟩

/-- Well-formedness of the wallet's id state: every stored order's ExchangeID
is at most the id counter, and all stored ExchangeIDs are pairwise distinct. -/
def PaperWallet.freshIDs (p : PaperWallet) : Prop :=
  (∀ o ∈ p.orders, o.exchangeID ≤ p.counter) ∧
  p.orders.Pairwise (fun a b => a.exchangeID ≠ b.exchangeID)

/-- Freshness contract of a single-order creation: the resulting wallet is
well-formed again and, on success, the new order's ExchangeID is strictly
greater than every previously stored id. -/
def orderResultFresh (p0 : PaperWallet) : PaperWallet × Except WalletError Order → Prop
  | (p', Except.ok o) =>
      p'.freshIDs ∧ (∀ prev ∈ p0.orders, prev.exchangeID < o.exchangeID)
  | (p', Except.error _) => p'.freshIDs

/-- Freshness contract of an OCO creation: both legs get distinct fresh ids
strictly greater than every previously stored id. -/
def ocoResultFresh (p0 : PaperWallet) :
    PaperWallet × Except WalletError (Order × Order) → Prop
  | (p', Except.ok (o1, o2)) =>
      p'.freshIDs ∧ o1.exchangeID ≠ o2.exchangeID ∧
      (∀ prev ∈ p0.orders,
        prev.exchangeID < o1.exchangeID ∧ prev.exchangeID < o2.exchangeID)
  | (p', Except.error _) => p'.freshIDs

theorem freshIDs_of_eq (p q : PaperWallet) (ho : q.orders = p.orders)
    (hc : q.counter = p.counter) (h : p.freshIDs) : q.freshIDs := by
  unfold PaperWallet.freshIDs at *
  rw [ho, hc]
  exact h

theorem freshList_append1 (l : List Order) (c : Int) (o : Order)
    (hb : ∀ x ∈ l, x.exchangeID ≤ c)
    (hp : l.Pairwise (fun a b => a.exchangeID ≠ b.exchangeID))
    (hid : o.exchangeID = c + 1) :
    (∀ x ∈ l ++ [o], x.exchangeID ≤ c + 1) ∧
    (l ++ [o]).Pairwise (fun a b => a.exchangeID ≠ b.exchangeID) := by
  constructor
  · intro x hx
    rcases List.mem_append.mp hx with hx | hx
    · have := hb x hx
      omega
    · simp only [List.mem_singleton] at hx
      subst hx
      omega
  · refine List.pairwise_append.mpr ⟨hp, List.pairwise_singleton _ _, ?_⟩
    intro x hx y hy
    simp only [List.mem_singleton] at hy
    subst hy
    have := hb x hx
    omega

theorem freshList_append2 (l : List Order) (c : Int) (o1 o2 : Order)
    (hb : ∀ x ∈ l, x.exchangeID ≤ c)
    (hp : l.Pairwise (fun a b => a.exchangeID ≠ b.exchangeID))
    (hid1 : o1.exchangeID = c + 1 + 1) (hid2 : o2.exchangeID = c + 1 + 1 + 1) :
    (∀ x ∈ l ++ [o1, o2], x.exchangeID ≤ c + 1 + 1 + 1) ∧
    (l ++ [o1, o2]).Pairwise (fun a b => a.exchangeID ≠ b.exchangeID) := by
  constructor
  · intro x hx
    rcases List.mem_append.mp hx with hx | hx
    · have := hb x hx
      omega
    · rcases List.mem_cons.mp hx with hx | hx
      · subst hx; omega
      · simp only [List.mem_singleton] at hx
        subst hx; omega
  · refine List.pairwise_append.mpr ⟨hp, ?_, ?_⟩
    · refine List.pairwise_cons.mpr ⟨?_, List.pairwise_singleton _ _⟩
      intro y hy
      simp only [List.mem_singleton] at hy
      subst hy
      omega
    · intro x hx y hy
      have := hb x hx
      rcases List.mem_cons.mp hy with hy | hy
      · subst hy; omega
      · simp only [List.mem_singleton] at hy
        subst hy; omega

theorem createOrderMarket_fresh (p : PaperWallet) (side : Side) (pair : String)
    (size : Rat) (h : p.freshIDs) :
    orderResultFresh p (p.createOrderMarket side pair size) := by
  simp only [PaperWallet.createOrderMarket]
  split
  · exact h
  · rcases hv : p.validateFunds side pair size ((p.lastCandle.getD pair {}).close) true
      with ⟨p1, oe⟩
    have ho : p1.orders = p.orders := by
      have := PaperWallet.validateFunds_orders p side pair size
        ((p.lastCandle.getD pair {}).close) true
      rw [hv] at this
      exact this
    have hc : p1.counter = p.counter := by
      have := PaperWallet.validateFunds_counter p side pair size
        ((p.lastCandle.getD pair {}).close) true
      rw [hv] at this
      exact this
    cases oe with
    | some e =>
      simp only [hv]
      exact freshIDs_of_eq p p1 ho hc h
    | none =>
      simp only [hv, PaperWallet.nextID, orderResultFresh]
      rw [PaperWallet.freshIDs]
      simp only [PaperWallet.ensureVolume_orders, PaperWallet.ensureVolume_counter, ho, hc]
      refine ⟨freshList_append1 p.orders p.counter _ h.1 h.2 rfl, ?_⟩
      intro prev hprev
      have := h.1 prev hprev
      omega

theorem createOrderLimit_fresh (p : PaperWallet) (side : Side) (pair : String)
    (size limit : Rat) (h : p.freshIDs) :
    orderResultFresh p (p.createOrderLimit side pair size limit) := by
  simp only [PaperWallet.createOrderLimit]
  split
  · exact h
  · rcases hv : p.validateFunds side pair size limit false with ⟨p1, oe⟩
    have ho : p1.orders = p.orders := by
      have := PaperWallet.validateFunds_orders p side pair size limit false
      rw [hv] at this
      exact this
    have hc : p1.counter = p.counter := by
      have := PaperWallet.validateFunds_counter p side pair size limit false
      rw [hv] at this
      exact this
    cases oe with
    | some e =>
      simp only [hv]
      exact freshIDs_of_eq p p1 ho hc h
    | none =>
      simp only [hv, PaperWallet.nextID, orderResultFresh]
      rw [PaperWallet.freshIDs]
      simp only [ho, hc]
      refine ⟨freshList_append1 p.orders p.counter _ h.1 h.2 rfl, ?_⟩
      intro prev hprev
      have := h.1 prev hprev
      omega

theorem createOrderStop_fresh (p : PaperWallet) (pair : String)
    (size limit : Rat) (h : p.freshIDs) :
    orderResultFresh p (p.createOrderStop pair size limit) := by
  simp only [PaperWallet.createOrderStop]
  split
  · exact h
  · rcases hv : p.validateFunds Side.sell pair size limit false with ⟨p1, oe⟩
    have ho : p1.orders = p.orders := by
      have := PaperWallet.validateFunds_orders p Side.sell pair size limit false
      rw [hv] at this
      exact this
    have hc : p1.counter = p.counter := by
      have := PaperWallet.validateFunds_counter p Side.sell pair size limit false
      rw [hv] at this
      exact this
    cases oe with
    | some e =>
      simp only [hv]
      exact freshIDs_of_eq p p1 ho hc h
    | none =>
      simp only [hv, PaperWallet.nextID, orderResultFresh]
      rw [PaperWallet.freshIDs]
      simp only [ho, hc]
      refine ⟨freshList_append1 p.orders p.counter _ h.1 h.2 rfl, ?_⟩
      intro prev hprev
      have := h.1 prev hprev
      omega

theorem createOrderOCO_fresh (p : PaperWallet) (side : Side) (pair : String)
    (size price stop stopLimit : Rat) (h : p.freshIDs) :
    ocoResultFresh p (p.createOrderOCO side pair size price stop stopLimit) := by
  simp only [PaperWallet.createOrderOCO]
  split
  · exact h
  · rcases hv : p.validateFunds side pair size price false with ⟨p1, oe⟩
    have ho : p1.orders = p.orders := by
      have := PaperWallet.validateFunds_orders p side pair size price false
      rw [hv] at this
      exact this
    have hc : p1.counter = p.counter := by
      have := PaperWallet.validateFunds_counter p side pair size price false
      rw [hv] at this
      exact this
    cases oe with
    | some e =>
      simp only [hv]
      exact freshIDs_of_eq p p1 ho hc h
    | none =>
      simp only [hv, PaperWallet.nextID, ocoResultFresh]
      rw [PaperWallet.freshIDs]
      simp only [ho, hc]
      refine ⟨⟨?_, ?_⟩, ?_, ?_⟩
      · exact (freshList_append2 p.orders p.counter _ _ h.1 h.2 rfl rfl).1
      · exact (freshList_append2 p.orders p.counter _ _ h.1 h.2 rfl rfl).2
      · show p.counter + 1 + 1 ≠ p.counter + 1 + 1 + 1
        omega
      · intro prev hprev
        have := h.1 prev hprev
        refine ⟨?_, ?_⟩
        · show prev.exchangeID < p.counter + 1 + 1
          omega
        · show prev.exchangeID < p.counter + 1 + 1 + 1
          omega

/-- C10.  Every order created through the simulated venue — market, limit,
stop, and both OCO legs — draws its ExchangeID from the wallet's strictly
increasing counter (PaperWallet.ID): starting from a wallet whose order log
has pairwise-distinct ids bounded by the counter, each creation operation
preserves that invariant and assigns the new order(s) ids strictly greater
than every previously assigned id (the two OCO legs also differing from each
other), so all orders in the log have pairwise distinct ExchangeIDs. -/
theorem C10_fresh_exchange_ids (p : PaperWallet) (side : Side) (pair : String)
    (size limit price stop stopLimit : Rat) (h : p.freshIDs) :
    orderResultFresh p (p.createOrderMarket side pair size) ∧
    orderResultFresh p (p.createOrderLimit side pair size limit) ∧
    orderResultFresh p (p.createOrderStop pair size limit) ∧
    ocoResultFresh p (p.createOrderOCO side pair size price stop stopLimit) :=
  ⟨createOrderMarket_fresh p side pair size h,
   createOrderLimit_fresh p side pair size limit h,
   createOrderStop_fresh p pair size limit h,
   createOrderOCO_fresh p side pair size price stop stopLimit h⟩

/-- A wallet with two stored orders (ids 3 and 5) and counter 5. -/
def freshWitnessWallet : PaperWallet :=
  { baseCoin := "USDT", counter := 5,
    assets := [("USDT", { free := 10000, lock := 0 })],
    orders := [{ exchangeID := 3 }, { exchangeID := 5 }],
    lastCandle := [("BTCUSDT", scenarioBar1)] }

theorem freshWitnessWallet_fresh : freshWitnessWallet.freshIDs := by
  constructor
  · intro o ho
    simp only [freshWitnessWallet] at ho ⊢
    rcases List.mem_cons.mp ho with h1 | h1
    · subst h1; decide
    · rw [List.mem_singleton] at h1
      subst h1; decide
  · simp only [freshWitnessWallet]
    refine List.pairwise_cons.mpr ⟨?_, List.pairwise_singleton _ _⟩
    intro y hy
    simp only [List.mem_singleton] at hy
    subst hy
    decide

/-- C10 witness: the freshness theorem instantiated at a concrete wallet
with two stored orders. -/
theorem C10_witness :
    freshWitnessWallet.freshIDs ∧
    (orderResultFresh freshWitnessWallet
        (freshWitnessWallet.createOrderMarket Side.buy "BTCUSDT" 1) ∧
     orderResultFresh freshWitnessWallet
        (freshWitnessWallet.createOrderLimit Side.buy "BTCUSDT" 1 10) ∧
     orderResultFresh freshWitnessWallet
        (freshWitnessWallet.createOrderStop "BTCUSDT" 1 10) ∧
     ocoResultFresh freshWitnessWallet
        (freshWitnessWallet.createOrderOCO Side.buy "BTCUSDT" 1 10 8 7)) :=
  ⟨freshWitnessWallet_fresh,
   C10_fresh_exchange_ids freshWitnessWallet Side.buy "BTCUSDT" 1 10 10 8 7
     freshWitnessWallet_fresh⟩

theorem PaperWallet.getAsset_updateAveragePrice (p : PaperWallet) (side : Side)
    (pair : String) (amount value : Rat) (a : String) :
    (p.updateAveragePrice side pair amount value).getAsset a = p.getAsset a := by
  unfold PaperWallet.getAsset
  rw [PaperWallet.updateAveragePrice_assets]

theorem applyReserve_nonneg (q : PaperWallet) (side : Side) (pair : String)
    (amount value : Rat) (fill : Bool)
    (hamount : 0 ≤ amount) (hvalue : 0 ≤ value)
    (hnn : ∀ a, 0 ≤ (q.getAsset a).free ∧ 0 ≤ (q.getAsset a).lock)
    (hne : (splitAssetQuote pair).1 ≠ (splitAssetQuote pair).2)
    (hsell : side = Side.sell → amount ≤ (q.getAsset (splitAssetQuote pair).1).free)
    (hfunds : q.fundsInsufficient side pair amount value = false) :
    ∀ a, 0 ≤ ((q.applyReserve side pair amount value fill).getAsset a).free ∧
         0 ≤ ((q.applyReserve side pair amount value fill).getAsset a).lock := by
  intro a
  have hne' : (splitAssetQuote pair).2 ≠ (splitAssetQuote pair).1 := fun h => hne h.symm
  have hmul : (0 : Rat) ≤ amount * value := mul_nonneg hamount hvalue
  cases side with
  | sell =>
    have hfa := (hnn (splitAssetQuote pair).1).1
    have hla := (hnn (splitAssetQuote pair).1).2
    have hfq := (hnn (splitAssetQuote pair).2).1
    have hlq := (hnn (splitAssetQuote pair).2).2
    have hsa := hsell rfl
    have hLA : min (max (q.getAsset (splitAssetQuote pair).1).free 0) amount = amount := by
      rw [max_eq_left hfa]
      exact min_eq_right hsa
    simp only [PaperWallet.applyReserve, hLA, sub_self, zero_mul, sub_zero]
    split
    · -- fill = true
      simp only [gt_iff_lt, lt_irrefl, if_false,
        PaperWallet.getAsset_modifyAsset, PaperWallet.getAsset_updateAveragePrice]
      by_cases hA : (splitAssetQuote pair).1 = a <;>
        by_cases hQ : (splitAssetQuote pair).2 = a
      · exact absurd (hA.trans hQ.symm) hne
      · simp only [if_pos hA, if_neg hQ, if_neg hne, if_neg hne']
        exact ⟨by first | linarith | (simp; linarith) | simp, by first | linarith | (simp; linarith) | simp⟩
      · simp only [if_pos hQ, if_neg hA, if_neg hne, if_neg hne']
        exact ⟨by first | linarith | (simp; linarith) | simp, by first | linarith | (simp; linarith) | simp⟩
      · simp only [if_neg hA, if_neg hQ]
        exact hnn a
    · -- fill = false
      simp only [PaperWallet.getAsset_modifyAsset]
      by_cases hA : (splitAssetQuote pair).1 = a <;>
        by_cases hQ : (splitAssetQuote pair).2 = a
      · exact absurd (hA.trans hQ.symm) hne
      · simp only [if_pos hA, if_neg hQ, if_neg hne, if_neg hne']
        exact ⟨by first | linarith | (simp; linarith) | simp, by first | linarith | (simp; linarith) | simp⟩
      · simp only [if_pos hQ, if_neg hA, if_neg hne, if_neg hne']
        exact ⟨by first | linarith | (simp; linarith) | simp, by first | linarith | (simp; linarith) | simp⟩
      · simp only [if_neg hA, if_neg hQ]
        exact hnn a
  | buy =>
    have hfa := (hnn (splitAssetQuote pair).1).1
    have hla := (hnn (splitAssetQuote pair).1).2
    have hfq := (hnn (splitAssetQuote pair).2).1
    have hlq := (hnn (splitAssetQuote pair).2).2
    have hnotneg : ¬ (q.getAsset (splitAssetQuote pair).1).free < 0 := not_lt.mpr hfa
    have hmin0 : min (q.getAsset (splitAssetQuote pair).1).free 0 = 0 := min_eq_right hfa
    have hqf : amount * value ≤ (q.getAsset (splitAssetQuote pair).2).free := by
      have h1 := hfunds
      simp only [PaperWallet.fundsInsufficient, if_neg hnotneg] at h1
      have h2 := of_decide_eq_false h1
      rw [not_lt] at h2
      linarith
    simp only [PaperWallet.applyReserve, if_neg hnotneg, hmin0, neg_zero,
      min_eq_left hamount, sub_zero, zero_mul, add_zero]
    split
    · -- fill = true
      simp only [PaperWallet.getAsset_modifyAsset, PaperWallet.getAsset_updateAveragePrice]
      by_cases hA : (splitAssetQuote pair).1 = a <;>
        by_cases hQ : (splitAssetQuote pair).2 = a
      · exact absurd (hA.trans hQ.symm) hne
      · simp only [if_pos hA, if_neg hQ, if_neg hne, if_neg hne']
        exact ⟨by first | linarith | (simp; linarith) | simp, by first | linarith | (simp; linarith) | simp⟩
      · simp only [if_pos hQ, if_neg hA, if_neg hne, if_neg hne']
        exact ⟨by first | linarith | (simp; linarith) | simp, by first | linarith | (simp; linarith) | simp⟩
      · simp only [if_neg hA, if_neg hQ]
        exact hnn a
    · -- fill = false
      simp only [PaperWallet.getAsset_modifyAsset]
      by_cases hA : (splitAssetQuote pair).1 = a <;>
        by_cases hQ : (splitAssetQuote pair).2 = a
      · exact absurd (hA.trans hQ.symm) hne
      · simp only [if_pos hA, if_neg hQ, if_neg hne, if_neg hne']
        exact ⟨by first | linarith | (simp; linarith) | simp, by first | linarith | (simp; linarith) | simp⟩
      · simp only [if_pos hQ, if_neg hA, if_neg hne, if_neg hne']
        exact ⟨by first | linarith | (simp; linarith) | simp, by first | linarith | (simp; linarith) | simp⟩
      · simp only [if_neg hA, if_neg hQ]
        exact hnn a

theorem PaperWallet.getAsset_ensureVolume (p : PaperWallet) (k : String) (a : String) :
    (p.ensureVolume k).getAsset a = p.getAsset a := by
  unfold PaperWallet.getAsset
  rw [PaperWallet.ensureVolume_assets]

theorem PaperWallet.getAsset_addVolume (p : PaperWallet) (k : String) (amt : Rat)
    (a : String) : (p.addVolume k amt).getAsset a = p.getAsset a := rfl

theorem PaperWallet.getAsset_setOrderStatusAt (p : PaperWallet) (i : Nat) (t : Int)
    (st : OrderStatus) (a : String) :
    (p.setOrderStatusAt i t st).getAsset a = p.getAsset a := rfl

theorem PaperWallet.cancelGroupSibling_assets (p : PaperWallet) (g : Int) (eid : Int)
    (t : Int) : (p.cancelGroupSibling g eid t).assets = p.assets := by
  unfold PaperWallet.cancelGroupSibling
  split <;> rfl

theorem PaperWallet.getAsset_cancelGroupSibling (p : PaperWallet) (g : Int) (eid : Int)
    (t : Int) (a : String) :
    (p.cancelGroupSibling g eid t).getAsset a = p.getAsset a := by
  unfold PaperWallet.getAsset
  rw [PaperWallet.cancelGroupSibling_assets]

theorem sellFillPrice_nonneg (o : Order) (c : Candle) (pr : Rat)
    (h : sellFillPrice o c = some pr) (hprice : 0 ≤ o.price)
    (hstop : 0 ≤ o.stop.getD 0) : 0 ≤ pr := by
  unfold sellFillPrice at h
  split at h
  · injection h with h
    rw [← h]
    exact hprice
  · split at h
    · injection h with h
      rw [← h]
      exact hstop
    · cases h

theorem validateFunds_nonneg (p : PaperWallet) (side : Side) (pair : String)
    (amount value : Rat) (fill : Bool)
    (hamount : 0 ≤ amount) (hvalue : 0 ≤ value)
    (hnn : ∀ a, 0 ≤ (p.getAsset a).free ∧ 0 ≤ (p.getAsset a).lock)
    (hne : (splitAssetQuote pair).1 ≠ (splitAssetQuote pair).2)
    (hsell : side = Side.sell → amount ≤ (p.getAsset (splitAssetQuote pair).1).free) :
    ∀ a, 0 ≤ ((p.validateFunds side pair amount value fill).1.getAsset a).free ∧
         0 ≤ ((p.validateFunds side pair amount value fill).1.getAsset a).lock := by
  have hP2 : ∀ a,
      ((p.ensureAsset (splitAssetQuote pair).1).ensureAsset (splitAssetQuote pair).2).getAsset a =
        p.getAsset a := fun a => by
    rw [PaperWallet.getAsset_ensureAsset, PaperWallet.getAsset_ensureAsset]
  intro a
  simp only [PaperWallet.validateFunds]
  split
  · rw [hP2 a]
    exact hnn a
  · rename_i hC
    exact applyReserve_nonneg _ side pair amount value fill hamount hvalue
      (fun b => by rw [hP2 b]; exact hnn b) hne
      (fun hs => by rw [hP2]; exact hsell hs) (Bool.eq_false_iff.mpr hC) a

theorem createOrderMarket_assets (p : PaperWallet) (side : Side) (pair : String)
    (size : Rat) :
    (p.createOrderMarket side pair size).1.assets =
      if size = 0 then p.assets
      else (p.validateFunds side pair size (p.lastCandle.getD pair {}).close true).1.assets := by
  simp only [PaperWallet.createOrderMarket]
  split
  · rfl
  · rcases hv : p.validateFunds side pair size ((p.lastCandle.getD pair {}).close) true
      with ⟨p1, oe⟩
    cases oe <;> simp [hv, PaperWallet.nextID, PaperWallet.ensureVolume_assets]

theorem createOrderLimit_assets (p : PaperWallet) (side : Side) (pair : String)
    (size limit : Rat) :
    (p.createOrderLimit side pair size limit).1.assets =
      if size = 0 then p.assets
      else (p.validateFunds side pair size limit false).1.assets := by
  simp only [PaperWallet.createOrderLimit]
  split
  · rfl
  · rcases hv : p.validateFunds side pair size limit false with ⟨p1, oe⟩
    cases oe <;> simp [hv, PaperWallet.nextID]

theorem createOrderStop_assets (p : PaperWallet) (pair : String) (size limit : Rat) :
    (p.createOrderStop pair size limit).1.assets =
      if size = 0 then p.assets
      else (p.validateFunds Side.sell pair size limit false).1.assets := by
  simp only [PaperWallet.createOrderStop]
  split
  · rfl
  · rcases hv : p.validateFunds Side.sell pair size limit false with ⟨p1, oe⟩
    cases oe <;> simp [hv, PaperWallet.nextID]

theorem createOrderOCO_assets (p : PaperWallet) (side : Side) (pair : String)
    (size price stop stopLimit : Rat) :
    (p.createOrderOCO side pair size price stop stopLimit).1.assets =
      if size = 0 then p.assets
      else (p.validateFunds side pair size price false).1.assets := by
  simp only [PaperWallet.createOrderOCO]
  split
  · rfl
  · rcases hv : p.validateFunds side pair size price false with ⟨p1, oe⟩
    cases oe <;> simp [hv, PaperWallet.nextID]

theorem onCandleStep_nonneg (q : PaperWallet) (c : Candle) (i : Nat) (ord : Order)
    (hq : q.orders.get? i = some ord)
    (hnn : ∀ a, 0 ≤ (q.getAsset a).free ∧ 0 ≤ (q.getAsset a).lock)
    (hqty : 0 ≤ ord.quantity) (hprice : 0 ≤ ord.price)
    (hstop : 0 ≤ ord.stop.getD 0)
    (hne : (splitAssetQuote ord.pair).1 ≠ (splitAssetQuote ord.pair).2)
    (hbuyRes : ord.side = Side.buy →
      ord.price * ord.quantity ≤ (q.getAsset (splitAssetQuote ord.pair).2).lock)
    (hsellRes : ord.side = Side.sell →
      ord.quantity ≤ (q.getAsset (splitAssetQuote ord.pair).1).lock) :
    ∀ a, 0 ≤ ((q.onCandleStep c i).getAsset a).free ∧
         0 ≤ ((q.onCandleStep c i).getAsset a).lock := by
  intro a
  have hne' : (splitAssetQuote ord.pair).2 ≠ (splitAssetQuote ord.pair).1 :=
    fun h => hne h.symm
  have hfa := (hnn (splitAssetQuote ord.pair).1).1
  have hla := (hnn (splitAssetQuote ord.pair).1).2
  have hfq := (hnn (splitAssetQuote ord.pair).2).1
  have hlq := (hnn (splitAssetQuote ord.pair).2).2
  simp only [PaperWallet.onCandleStep, hq]
  split
  · exact hnn a
  · by_cases hbc : ord.side = Side.buy ∧ ord.price ≥ c.close
    · by_cases hsc : ord.side = Side.sell
      · rw [hbc.1] at hsc
        cases hsc
      · have hb := hbuyRes hbc.1
        have hmul : (0:Rat) ≤ ord.price * ord.quantity := mul_nonneg hprice hqty
        simp only [if_pos hbc, if_neg hsc,
          PaperWallet.getAsset_modifyAsset, PaperWallet.getAsset_updateAveragePrice,
          PaperWallet.getAsset_setOrderStatusAt, PaperWallet.getAsset_addVolume,
          PaperWallet.getAsset_ensureAsset, PaperWallet.getAsset_ensureVolume]
        by_cases hA : (splitAssetQuote ord.pair).1 = a <;>
          by_cases hQ : (splitAssetQuote ord.pair).2 = a
        · exact absurd (hA.trans hQ.symm) hne
        · simp only [if_pos hA, if_neg hQ, if_neg hne, if_neg hne']
          exact ⟨by first | linarith | (simp; linarith) | simp,
                 by first | linarith | (simp; linarith) | simp⟩
        · simp only [if_pos hQ, if_neg hA, if_neg hne, if_neg hne']
          exact ⟨by first | linarith | (simp; linarith) | simp,
                 by first | linarith | (simp; linarith) | simp⟩
        · simp only [if_neg hA, if_neg hQ]
          exact hnn a
    · by_cases hsc : ord.side = Side.sell
      · simp only [if_neg hbc, if_pos hsc]
        cases hfp : sellFillPrice ord c with
        | none =>
          simp only [hfp, PaperWallet.getAsset_ensureVolume]
          exact hnn a
        | some pr =>
          have hpr : 0 ≤ pr := sellFillPrice_nonneg ord c pr hfp hprice hstop
          have hs := hsellRes hsc
          have hmul : (0:Rat) ≤ ord.quantity * pr := mul_nonneg hqty hpr
          simp only [hfp]
          cases hg : ord.groupID with
          | none =>
            simp only [hg,
              PaperWallet.getAsset_modifyAsset, PaperWallet.getAsset_updateAveragePrice,
              PaperWallet.getAsset_setOrderStatusAt, PaperWallet.getAsset_addVolume,
              PaperWallet.getAsset_ensureAsset, PaperWallet.getAsset_ensureVolume]
            by_cases hA : (splitAssetQuote ord.pair).1 = a <;>
              by_cases hQ : (splitAssetQuote ord.pair).2 = a
            · exact absurd (hA.trans hQ.symm) hne
            · simp only [if_pos hA, if_neg hQ, if_neg hne, if_neg hne']
              exact ⟨by first | linarith | (simp; linarith) | simp,
                     by first | linarith | (simp; linarith) | simp⟩
            · simp only [if_pos hQ, if_neg hA, if_neg hne, if_neg hne']
              exact ⟨by first | linarith | (simp; linarith) | simp,
                     by first | linarith | (simp; linarith) | simp⟩
            · simp only [if_neg hA, if_neg hQ]
              exact hnn a
          | some g =>
            simp only [hg,
              PaperWallet.getAsset_modifyAsset, PaperWallet.getAsset_updateAveragePrice,
              PaperWallet.getAsset_setOrderStatusAt, PaperWallet.getAsset_addVolume,
              PaperWallet.getAsset_ensureAsset, PaperWallet.getAsset_cancelGroupSibling,
              PaperWallet.getAsset_ensureVolume]
            by_cases hA : (splitAssetQuote ord.pair).1 = a <;>
              by_cases hQ : (splitAssetQuote ord.pair).2 = a
            · exact absurd (hA.trans hQ.symm) hne
            · simp only [if_pos hA, if_neg hQ, if_neg hne, if_neg hne']
              exact ⟨by first | linarith | (simp; linarith) | simp,
                     by first | linarith | (simp; linarith) | simp⟩
            · simp only [if_pos hQ, if_neg hA, if_neg hne, if_neg hne']
              exact ⟨by first | linarith | (simp; linarith) | simp,
                     by first | linarith | (simp; linarith) | simp⟩
            · simp only [if_neg hA, if_neg hQ]
              exact hnn a
      · simp only [if_neg hbc, if_neg hsc, PaperWallet.getAsset_ensureVolume]
        exact hnn a

/-- The wallet holding a buy-side OCO pair (limit-maker at 10, stop-limit 7)
whose single reservation locked 10 USDT. -/
def ocoDoubleFillWallet : PaperWallet :=
  ((scenarioW0.onCandle scenarioBar1).createOrderOCO Side.buy "BTCUSDT" 1 10 8 7).1

/-- A bar at close 6 on which BOTH buy legs fill (10 >= 6 and 7 >= 6), since
sibling cancellation exists only for sell fills. -/
def ocoDoubleFillCandle : Candle :=
  { pair := "BTCUSDT", time := 2, openP := 6, close := 6, low := 6, high := 6, complete := false }

unseal Rat.mul Rat.add Rat.sub Rat.inv in
/-- C2 counterexample.  The claim says every asset's free and locked
quantities are ≥ 0 after every operation; the engine violates it in two of
the claim's operation classes.  (a) Order creation: a market sell of 10 units
against a wallet holding only USDT is accepted (validated against the quote
balance) and opens a short, leaving BTC free = -10.  (b) Fill processing on
bar arrival: a buy-side OCO pair reserves once (USDT lock = 10) but both legs
fill on a close-6 bar — the group-cancellation block exists only in the sell
branch — deducting 10 + 7 from the single lock of 10 and leaving USDT
lock = -7 with no short anywhere (BTC free = 2). -/
theorem C2_nonneg_violations :
    (((scenarioW0.onCandle scenarioBar1).createOrderMarket Side.sell "BTCUSDT" 10).2).toOption.isSome =
      true ∧
    ((((scenarioW0.onCandle scenarioBar1).createOrderMarket Side.sell "BTCUSDT" 10).1).getAsset
        "BTC").free = -10 ∧
    (ocoDoubleFillWallet.getAsset "USDT").lock = 10 ∧
    ((ocoDoubleFillWallet.onCandle ocoDoubleFillCandle).getAsset "USDT").lock = -7 ∧
    ((ocoDoubleFillWallet.onCandle ocoDoubleFillCandle).getAsset "BTC").free = 2 ∧
    ((-10 : Rat) < 0 ∧ (-7 : Rat) < 0) := by
  refine ⟨by decide, by decide, by decide, by decide, by decide, by decide⟩

/-- C2, amended.  Balance nonnegativity over the claim's three operation
classes, under exactly the side conditions the counterexample forces.
(1) Cancellation never touches balances.  (2) Fund reservation — whether it
rejects, reserves, or immediately debits a fill — keeps every asset's free
and locked quantities ≥ 0 provided all quantities start ≥ 0, amount and value
are ≥ 0, and a sell does not exceed the asset's free quantity (no short is
opened).  (3) Each of the four creation operations (market, limit, stop,
OCO) keeps every quantity ≥ 0 under the same conditions, since their only
balance effect is the reservation.  (4) Processing one order on bar arrival
keeps every quantity ≥ 0 provided the order's price, stop price and quantity
are ≥ 0 and its reservation is still locked (a buy fill draws at most the
quote's locked quantity; a sell fill at most the asset's locked quantity) —
the very condition the buy-side OCO double fill breaks. -/
theorem C2_amended_nonneg_preserved
    (p : PaperWallet) (side : Side) (pair : String)
    (amount value limit price stp stopLimit : Rat) (fill : Bool) (ord0 : Order)
    (hamount : 0 ≤ amount) (hvalue : 0 ≤ value) (hlimit : 0 ≤ limit)
    (hpricep : 0 ≤ price)
    (hclose : 0 ≤ (p.lastCandle.getD pair {}).close)
    (hnn : ∀ a, 0 ≤ (p.getAsset a).free ∧ 0 ≤ (p.getAsset a).lock)
    (hne : (splitAssetQuote pair).1 ≠ (splitAssetQuote pair).2)
    (hsell : side = Side.sell → amount ≤ (p.getAsset (splitAssetQuote pair).1).free)
    (hstopAmt : amount ≤ (p.getAsset (splitAssetQuote pair).1).free)
    (q : PaperWallet) (c : Candle) (i : Nat) (ord : Order)
    (hq : q.orders.get? i = some ord)
    (hnnQ : ∀ a, 0 ≤ (q.getAsset a).free ∧ 0 ≤ (q.getAsset a).lock)
    (hqty : 0 ≤ ord.quantity) (hprice : 0 ≤ ord.price)
    (hstp : 0 ≤ ord.stop.getD 0)
    (hneQ : (splitAssetQuote ord.pair).1 ≠ (splitAssetQuote ord.pair).2)
    (hbuyRes : ord.side = Side.buy →
      ord.price * ord.quantity ≤ (q.getAsset (splitAssetQuote ord.pair).2).lock)
    (hsellRes : ord.side = Side.sell →
      ord.quantity ≤ (q.getAsset (splitAssetQuote ord.pair).1).lock) :
    ((p.cancel ord0).1.assets = p.assets) ∧
    (∀ a, 0 ≤ ((p.validateFunds side pair amount value fill).1.getAsset a).free ∧
          0 ≤ ((p.validateFunds side pair amount value fill).1.getAsset a).lock) ∧
    (∀ a, 0 ≤ ((p.createOrderMarket side pair amount).1.getAsset a).free ∧
          0 ≤ ((p.createOrderMarket side pair amount).1.getAsset a).lock) ∧
    (∀ a, 0 ≤ ((p.createOrderLimit side pair amount limit).1.getAsset a).free ∧
          0 ≤ ((p.createOrderLimit side pair amount limit).1.getAsset a).lock) ∧
    (∀ a, 0 ≤ ((p.createOrderStop pair amount limit).1.getAsset a).free ∧
          0 ≤ ((p.createOrderStop pair amount limit).1.getAsset a).lock) ∧
    (∀ a, 0 ≤ ((p.createOrderOCO side pair amount price stp stopLimit).1.getAsset a).free ∧
          0 ≤ ((p.createOrderOCO side pair amount price stp stopLimit).1.getAsset a).lock) ∧
    (∀ a, 0 ≤ ((q.onCandleStep c i).getAsset a).free ∧
          0 ≤ ((q.onCandleStep c i).getAsset a).lock) := by
  have hvf := validateFunds_nonneg p side pair amount value fill hamount hvalue hnn hne hsell
  refine ⟨rfl, hvf, ?_, ?_, ?_, ?_,
    onCandleStep_nonneg q c i ord hq hnnQ hqty hprice hstp hneQ hbuyRes hsellRes⟩
  · intro a
    simp only [PaperWallet.getAsset, createOrderMarket_assets]
    split
    · exact hnn a
    · exact validateFunds_nonneg p side pair amount ((p.lastCandle.getD pair {}).close) true
        hamount hclose hnn hne hsell a
  · intro a
    simp only [PaperWallet.getAsset, createOrderLimit_assets]
    split
    · exact hnn a
    · exact validateFunds_nonneg p side pair amount limit false hamount hlimit hnn hne hsell a
  · intro a
    simp only [PaperWallet.getAsset, createOrderStop_assets]
    split
    · exact hnn a
    · exact validateFunds_nonneg p Side.sell pair amount limit false hamount hlimit hnn hne
        (fun _ => hstopAmt) a
  · intro a
    simp only [PaperWallet.getAsset, createOrderOCO_assets]
    split
    · exact hnn a
    · exact validateFunds_nonneg p side pair amount price false hamount hpricep hnn hne hsell a

/-- A pending limit buy (price 10, quantity 1) whose reservation of 10 USDT
is still locked. -/
def witnessBuyOrder : Order :=
  { exchangeID := 1, pair := "BTCUSDT", side := Side.buy, otype := OrderType.limit,
    status := OrderStatus.new, price := 10, quantity := 1 }

/-- Concrete wallet for the C2 witness: 9990 USDT free / 10 locked behind
`witnessBuyOrder`, 50 BTC free. -/
def nonnegWitnessWallet : PaperWallet :=
  { baseCoin := "USDT", counter := 1,
    assets := [("USDT", { free := 9990, lock := 10 }), ("BTC", { free := 50, lock := 0 })],
    orders := [witnessBuyOrder],
    lastCandle := [("BTCUSDT", scenarioBar1)] }

theorem nonnegWitnessWallet_nonneg :
    ∀ a, 0 ≤ (nonnegWitnessWallet.getAsset a).free ∧
         0 ≤ (nonnegWitnessWallet.getAsset a).lock := by
  intro a
  simp only [nonnegWitnessWallet, PaperWallet.getAsset, SMap.getD]
  split
  · constructor <;> norm_num
  · split
    · constructor <;> norm_num
    · constructor <;> norm_num

/-- A close-9 bar at which `witnessBuyOrder` (price 10 ≥ 9) fills. -/
def witnessFillCandle : Candle :=
  { pair := "BTCUSDT", time := 2, openP := 9, close := 9, low := 9, high := 9, complete := true }

unseal Rat.mul Rat.add Rat.sub Rat.inv in
/-- Witness for C2: the amended theorem instantiated at `nonnegWitnessWallet`,
a sell of 5 BTC (within the 50 free), and the fill of the pending buy order on
a close-9 bar, with the conclusions read off at USDT and BTC. -/
theorem C2_amended_witness :
    ((nonnegWitnessWallet.cancel witnessBuyOrder).1.assets = nonnegWitnessWallet.assets) ∧
    0 ≤ ((nonnegWitnessWallet.validateFunds Side.sell "BTCUSDT" 5 10 false).1.getAsset
          "BTC").free ∧
    0 ≤ ((nonnegWitnessWallet.createOrderMarket Side.sell "BTCUSDT" 5).1.getAsset "BTC").free ∧
    0 ≤ ((nonnegWitnessWallet.createOrderLimit Side.sell "BTCUSDT" 5 10).1.getAsset "BTC").free ∧
    0 ≤ ((nonnegWitnessWallet.createOrderStop "BTCUSDT" 5 10).1.getAsset "BTC").free ∧
    0 ≤ ((nonnegWitnessWallet.createOrderOCO Side.sell "BTCUSDT" 5 10 8 7).1.getAsset
          "BTC").free ∧
    0 ≤ ((nonnegWitnessWallet.onCandleStep witnessFillCandle 0).getAsset "USDT").lock := by
  have H := C2_amended_nonneg_preserved nonnegWitnessWallet Side.sell "BTCUSDT"
    5 10 10 10 8 7 false witnessBuyOrder
    (by decide) (by decide) (by decide) (by decide) (by decide)
    nonnegWitnessWallet_nonneg (by decide) (fun _ => by decide) (by decide)
    nonnegWitnessWallet witnessFillCandle 0 witnessBuyOrder rfl
    nonnegWitnessWallet_nonneg
    (by decide) (by decide) (by decide) (by decide)
    (fun _ => by decide) (fun h => by cases h)
  exact ⟨H.1, (H.2.1 "BTC").1, (H.2.2.1 "BTC").1, (H.2.2.2.1 "BTC").1,
    (H.2.2.2.2.1 "BTC").1, (H.2.2.2.2.2.1 "BTC").1, ((H.2.2.2.2.2.2) "USDT").2⟩
